import Mathlib

/-!
# OpenXcom `Engine/CrossPlatform.cpp`: log pipeline and crash reporting

A shallow embedding of `logToFile`, `deleteFile`, `getLogFileName`,
`setLogFileName`, `log`, `now`, `showError`, `stackTrace`, `crashDump`,
`baseFilename`, `noExt`, `getExt`, `getLocale` and `getYamlSaveHeader` from
`src/Engine/CrossPlatform.cpp`, followed by the properties of the pending
buffer, of the destination file, of the crash report and of the string
functions.

The two globals `logBuffer` and `logFileName` become fields of `LogState`,
together with the part of the outside world the functions touch (the files
and the standard error stream).  What a call reads from the outside world
(the clock, the reporting level, whether a write succeeds) is passed in as a
`CallEnv`.  The crash reporter works on a `World`, which adds the sequence of
observable events; the branches that the preprocessor selects are separate
definitions or cases of `Backend`.
-/

namespace OpenXcom

/-- The part of `Logger.h` that `CrossPlatform.cpp` uses.  The header is not
among the translated sources, so the numeric values of the severity constants,
the severity names and the gate of the `Log(level)` statement are parameters. -/
structure Logger where
  /-- Value of the enumerator `LOG_ERROR`. -/
  LOG_ERROR : Int
  /-- Value of the enumerator `LOG_DEBUG`. -/
  LOG_DEBUG : Int
  /-- Value of the enumerator `LOG_UNCENSORED`. -/
  LOG_UNCENSORED : Int
  /-- The function `Logger::toString(level)`: the printed name of a severity. -/
  toString : Int → String
  /-- Whether a `Log(level) << ...` statement executed under reporting level
  `r` hands its record to `CrossPlatform::log`: `emits level r`. -/
  emits : Int → Int → Bool

/-- What one call of `log` or `setLogFileName` reads from outside the program. -/
structure CallEnv where
  /-- The value `Logger::reportingLevel()` returns during the call. -/
  reportingLevel : Int
  /-- The string `CrossPlatform::now()` returns during the call. -/
  now : String
  /-- The string `SDL_GetError()` returns during the call. -/
  sdlError : String
  /-- Outcome of the `k`-th `logToFile` call made during the call (from 0). -/
  writeOk : Nat → Bool
  /-- Whether `remove`/`DeleteFileW` succeeds during the call. -/
  deleteOk : Bool

/-- A file system: the content of the file at each path, `none` when there is
no file. -/
abbrev Files := String → Option String

/-- The globals of the log pipeline and the outside state it changes. -/
structure LogState where
  /-- The global `logBuffer`, a `std::list<std::pair<int, std::string>>`;
  the head of the list is `front()`. -/
  logBuffer : List (Int × String)
  /-- The global `logFileName`. -/
  logFileName : String
  /-- The files on disk. -/
  files : Files
  /-- Everything written to `stderr` so far. -/
  stderr : String
  /-- How many times `logToFile` has been called so far. -/
  logToFileCalls : Nat

namespace CrossPlatform

/-- The constant `LOG_BUFFER_LIMIT = 1<<10`. -/
def LOG_BUFFER_LIMIT : Nat := 1 <<< 10

/-- The state at process start: both globals empty, nothing on disk. -/
def initialState : LogState :=
  { logBuffer := [], logFileName := "", files := fun _ => none, stderr := "",
    logToFileCalls := 0 }

/-- A file after `data` has been appended in mode `a+`: the file is created
when it does not exist. -/
def appendFile (fs : Files) (filename data : String) : Files :=
  fun p => if p = filename then some ((fs p).getD "" ++ data) else fs p

/-- The function `logToFile(filename, data)`: when the open and the write
succeed (`ok`), `data` is appended and `true` is returned; otherwise `false`
is returned and the file is as it was. -/
def logToFile (ok : Bool) (fs : Files) (filename data : String) : Files × Bool :=
  if ok then (appendFile fs filename data, true) else (fs, false)

/-- The function `deleteFile(path)`: when the removal succeeds there is no
file at `path` any more; otherwise nothing changes. -/
def deleteFile (ok : Bool) (fs : Files) (path : String) : Files × Bool :=
  if ok then (fun p => if p = path then none else fs p, true) else (fs, false)

/-- The function `getLogFileName()`. -/
def getLogFileName (s : LogState) : String := s.logFileName

/-- The text `log` builds in `msgstream`. -/
def formatMsg (L : Logger) (now : String) (level : Int) (baremsg : String) : String :=
  "[" ++ now ++ "]" ++ "\t" ++ "[" ++ L.toString level ++ "]" ++ "\t" ++ baremsg ++ "\n"

/-- The text of the entry pushed when a buffered record cannot be written. -/
def failureText (fileName sdlError : String) : String :=
  "Failed to append to '" ++ fileName ++ "': " ++ sdlError

/-- Result of the flush loop of `log`. -/
structure FlushResult where
  /-- The buffer when the loop is left. -/
  buffer : List (Int × String)
  /-- The files when the loop is left. -/
  files : Files
  /-- Number of `logToFile` calls made so far during this `log` call. -/
  writes : Nat
  /-- The local `failed`. -/
  failed : Bool

/-- The loop `while (!logBuffer.empty())` of `log`, started with `k` earlier
`logToFile` calls: the front record is written when the effective level is at
least its level, and popped; a failed write pushes the failure entry at the
back, sets `failed` and leaves the loop with the front record still there. -/
def flushLoop (L : Logger) (env : CallEnv) (fileName : String) :
    List (Int × String) → Nat → Files → FlushResult
  | [], k, fs => { buffer := [], files := fs, writes := k, failed := false }
  | r :: rest, k, fs =>
    if env.reportingLevel ≥ r.1 then
      if (logToFile (env.writeOk k) fs fileName r.2).2 then
        flushLoop L env fileName rest (k + 1) (logToFile (env.writeOk k) fs fileName r.2).1
      else
        { buffer := (r :: rest) ++ [(L.LOG_ERROR, failureText fileName env.sdlError)],
          files := (logToFile (env.writeOk k) fs fileName r.2).1,
          writes := k + 1, failed := true }
    else
      flushLoop L env fileName rest k fs

/-- The step `if (logBuffer.size() > LOG_BUFFER_LIMIT) logBuffer.pop_front()`. -/
def dropEarliest (buf : List (Int × String)) : List (Int × String) :=
  if buf.length > LOG_BUFFER_LIMIT then buf.tail else buf

/-- The function `log(level, baremsgstream)`. -/
def log (L : Logger) (env : CallEnv) (level : Int) (baremsg : String) (s : LogState) :
    LogState :=
  let msg := formatMsg L env.now level baremsg
  let effectiveLevel := env.reportingLevel
  let err := if effectiveLevel ≥ L.LOG_DEBUG then s.stderr ++ msg else s.stderr
  let buf := dropEarliest s.logBuffer
  if s.logFileName = "" ∨ effectiveLevel = L.LOG_UNCENSORED then
    { s with logBuffer := buf ++ [(level, msg)], stderr := err }
  else
    let r := flushLoop L env s.logFileName buf 0 s.files
    if r.failed then
      { s with logBuffer := r.buffer ++ [(level, msg)], files := r.files, stderr := err,
               logToFileCalls := s.logToFileCalls + r.writes }
    else if (logToFile (env.writeOk r.writes) r.files s.logFileName msg).2 then
      { s with logBuffer := r.buffer,
               files := (logToFile (env.writeOk r.writes) r.files s.logFileName msg).1,
               stderr := err, logToFileCalls := s.logToFileCalls + r.writes + 1 }
    else
      { s with logBuffer := r.buffer ++ [(level, msg)],
               files := (logToFile (env.writeOk r.writes) r.files s.logFileName msg).1,
               stderr := err, logToFileCalls := s.logToFileCalls + r.writes + 1 }

/-- The text `setLogFileName` logs about itself. -/
def setLogFileNameText (name oldName : String) (sz : Nat) : String :=
  "setLogFileName(" ++ name ++ ") was '" ++ oldName ++ "'; " ++ Nat.repr sz ++ " in buffer"

/-- The function `setLogFileName(name)`: the file at `name` is deleted, the
call logs itself at `LOG_DEBUG` (while the old name is still in place), and
the name is stored. -/
def setLogFileName (L : Logger) (env : CallEnv) (name : String) (s : LogState) : LogState :=
  let s1 : LogState := { s with files := (deleteFile env.deleteOk s.files name).1 }
  let sz := s1.logBuffer.length
  let s2 :=
    if L.emits L.LOG_DEBUG env.reportingLevel then
      log L env L.LOG_DEBUG (setLogFileNameText name s1.logFileName sz) s1
    else s1
  { s2 with logFileName := name }

/-- One call into the pipeline, with what it reads from outside. -/
inductive Call where
  | log (env : CallEnv) (level : Int) (baremsg : String)
  | setLogFileName (env : CallEnv) (name : String)

/-- The state after one call. -/
def step (L : Logger) (s : LogState) : Call → LogState
  | .log env level baremsg => log L env level baremsg s
  | .setLogFileName env name => setLogFileName L env name s

/-- The state after a sequence of calls, made in list order. -/
def run (L : Logger) (s : LogState) (calls : List Call) : LogState :=
  calls.foldl (step L) s

/-- The content of the file at `name`, the empty string when there is none. -/
def fileContent (fs : Files) (name : String) : String :=
  (fs name).getD ""

/-- The texts of the records of `buf`, one after the other in buffer order. -/
def concatTexts : List (Int × String) → String
  | [] => ""
  | r :: rest => r.2 ++ concatTexts rest

/-- The records of `buf` that pass the threshold test of the flush loop,
`effectiveLevel >= level`, in buffer order. -/
def writable (reportingLevel : Int) (buf : List (Int × String)) : List (Int × String) :=
  buf.filter (fun r => decide (reportingLevel ≥ r.1))

/-- The text the flush loop writes for `buf` when no write fails. -/
def persistedText (reportingLevel : Int) (buf : List (Int × String)) : String :=
  concatTexts (writable reportingLevel buf)

/-- The record `log(level, baremsg)` builds under `env`. -/
def record (L : Logger) (env : CallEnv) (level : Int) (baremsg : String) : Int × String :=
  (level, formatMsg L env.now level baremsg)

/-- The entry the flush loop pushes when a write fails. -/
def failureEntry (L : Logger) (env : CallEnv) (fileName : String) : Int × String :=
  (L.LOG_ERROR, failureText fileName env.sdlError)

/-- A concrete `Logger`: the severities numbered from the most severe,
`LOG_FATAL = 0`, `LOG_ERROR = 1`, `LOG_WARNING = 2`, `LOG_INFO = 3`,
`LOG_DEBUG = 4`, `LOG_VERBOSE = 5`, `LOG_UNCENSORED = 6`, and a `Log`
statement that always emits its record. -/
def stdLogger : Logger :=
  { LOG_ERROR := 1, LOG_DEBUG := 4, LOG_UNCENSORED := 6,
    toString := fun l =>
      if l = 0 then "FATAL" else if l = 1 then "ERROR" else if l = 2 then "WARN"
      else if l = 3 then "INFO" else if l = 4 then "DEBUG" else if l = 5 then "VERB"
      else "UNCENSOR",
    emits := fun _ _ => true }

/-- A call environment with reporting level `r` in which every write has the
outcome `ok`. -/
def constEnv (r : Int) (ok : Bool) : CallEnv :=
  { reportingLevel := r, now := "01-01-2020_00-00-00", sdlError := "disk full",
    writeOk := fun _ => ok, deleteOk := true }

/-- A sequence of `log` calls, each given with what it reads from outside, its
level and its message. -/
def logCalls (cs : List (CallEnv × Int × String)) : List Call :=
  cs.map (fun c => Call.log c.1 c.2.1 c.2.2)

/-- The records a sequence of `log` calls builds, in arrival order. -/
def records (L : Logger) (cs : List (CallEnv × Int × String)) : List (Int × String) :=
  cs.map (fun c => record L c.1 c.2.1 c.2.2)

/-- The record `setLogFileName(name)` logs about itself when the old name is
empty and `sz` records are buffered; empty when its `Log` statement emits
nothing. -/
def ownRecord (L : Logger) (env : CallEnv) (name : String) (sz : Nat) : List (Int × String) :=
  if L.emits L.LOG_DEBUG env.reportingLevel then
    [record L env L.LOG_DEBUG (setLogFileNameText name "" sz)]
  else []

/-- Scenario: an error is logged before configuration, the destination is
configured, an informational record follows; the reporting level is
`LOG_INFO = 3` throughout and every write succeeds. -/
def infoLevelCalls : List Call :=
  [Call.log (constEnv 3 true) 1 "a", Call.setLogFileName (constEnv 3 true) "openxcom.log",
   Call.log (constEnv 3 true) 3 "c"]

/-- Scenario: the destination is configured and one record is written, then
the only write of a further `log` call fails. -/
def lastWriteFailsCalls : List Call :=
  [Call.setLogFileName (constEnv 4 true) "openxcom.log", Call.log (constEnv 4 true) 3 "first",
   Call.log (constEnv 4 false) 3 "hello"]

/-- A configured state whose buffer holds `LOG_BUFFER_LIMIT - 1 = 1023`
records, all at `LOG_ERROR`. -/
def nearlyFullState : LogState :=
  { initialState with
    logFileName := "openxcom.log",
    logBuffer := (1, "oldest\n") :: List.replicate 1022 (1, "x\n") }

/-- A configured state with one buffered record. -/
def oneBufferedState : LogState :=
  { initialState with logFileName := "openxcom.log", logBuffer := [(1, "x\n")] }

/-- Scenario: the destination is configured under a sink that fails every
write, then `n` errors are logged. -/
def failingSinkCalls (n : Nat) : List Call :=
  Call.setLogFileName (constEnv 4 false) "openxcom.log" ::
    List.replicate n (Call.log (constEnv 4 false) 1 "disk full")

/-- Scenario: `log` calls `cs` are made from process start over the files
`fs0`, then `setLogFileName(name)` under `env1`, then one more `log` call
under `env2`. -/
def configureThenLog (L : Logger) (fs0 : Files) (cs : List (CallEnv × Int × String))
    (env1 : CallEnv) (name : String) (env2 : CallEnv) (level : Int) (baremsg : String) :
    LogState :=
  log L env2 level baremsg
    (setLogFileName L env1 name (run L { initialState with files := fs0 } (logCalls cs)))

/-- The state `nearlyFullState` after a `log` call all of whose writes fail. -/
def nearlyFullAfterFailure : LogState :=
  log stdLogger (constEnv 4 false) 1 "a" nearlyFullState

/-- The state `nearlyFullAfterFailure` after a `log` call all of whose writes
succeed. -/
def nearlyFullAfterRetry : LogState :=
  log stdLogger (constEnv 4 true) 1 "b" nearlyFullAfterFailure

/-- A state at process start with a log of an earlier run on disk. -/
def staleFileState : LogState :=
  { initialState with files := fun p => if p = "openxcom.log" then some "stale\n" else none }

/-- A call environment at reporting level `LOG_DEBUG` in which every write
succeeds and the removal of a file fails. -/
def deleteFailsEnv : CallEnv :=
  { constEnv 4 true with deleteOk := false }

/-- Scenario: `lastWriteFailsCalls` (a destination is configured and a record
is left in the buffer by a failed write), then `setLogFileName("new.log")`
with every write succeeding. -/
def reconfigureCalls : List Call :=
  lastWriteFailsCalls ++ [Call.setLogFileName (constEnv 4 true) "new.log"]

/-! ### The timestamp `now()` -/

/-- A broken-down local time, the `struct tm` that `localtime` returns. -/
structure Tm where
  /-- Seconds after the minute. -/
  tm_sec : Nat
  /-- Minutes after the hour. -/
  tm_min : Nat
  /-- Hours since midnight. -/
  tm_hour : Nat
  /-- Day of the month. -/
  tm_mday : Nat
  /-- Months since January. -/
  tm_mon : Nat
  /-- Years since 1900. -/
  tm_year : Int

/-- The constant `MAX_LEN` of `now()`. -/
def MAX_LEN : Nat := 25

/-- The conversions `%d`, `%m`, `%H`, `%M` and `%S` of `strftime`: a decimal
number padded with a zero to two digits. -/
def pad2 (n : Nat) : String :=
  if n < 10 then "0" ++ Nat.repr n else Nat.repr n

/-- The decimal text of an `int`, as `operator<<` and `printf` produce it. -/
def decimal (i : Int) : String :=
  match i with
  | Int.ofNat n => Nat.repr n
  | Int.negSucc n => "-" ++ Nat.repr (n + 1)

/-- The conversion `%Y` of `strftime`: the year as a decimal number. -/
def fmtYear (y : Int) : String :=
  decimal y

/-- The text of the format `"%d-%m-%Y_%H-%M-%S"` for `tm`. -/
def strftimeText (tm : Tm) : String :=
  pad2 tm.tm_mday ++ "-" ++ pad2 (tm.tm_mon + 1) ++ "-" ++ fmtYear (tm.tm_year + 1900) ++ "_" ++
    pad2 tm.tm_hour ++ "-" ++ pad2 tm.tm_min ++ "-" ++ pad2 tm.tm_sec

/-- The call `strftime(buffer, max, "%d-%m-%Y_%H-%M-%S", timeinfo)`: the text
when it fits, with its terminator, in `max` bytes; `none` when it does not
(the content of the buffer is then unspecified). -/
def strftime (max : Nat) (tm : Tm) : Option String :=
  if (strftimeText tm).length < max then some (strftimeText tm) else none

/-- The function `now()` where `_WIN32` is not defined, for the local time
`tm`: what `strftime` left in `buffer`. -/
def now (tm : Tm) : Option String :=
  strftime MAX_LEN tm

/-- The function `now()` under `_WIN32`: `date` and `time` are the texts that
`GetDateFormatA` (format `dd-MM-yyyy`) and `GetTimeFormatA` (format
`HH-mm-ss`) produce, `none` when the call returns 0. -/
def nowWin32 (date time : Option String) : String :=
  match date with
  | none => "00-00-0000"
  | some d =>
    match time with
    | none => "00-00-00"
    | some t => d ++ "_" ++ t

/-- The two decimal digits of `n`, tens first. -/
def twoDigits (n : Nat) : String :=
  String.mk [Nat.digitChar (n / 10 % 10), Nat.digitChar (n % 10)]

/-- The four decimal digits of `n`, thousands first. -/
def fourDigits (n : Nat) : String :=
  String.mk [Nat.digitChar (n / 1000 % 10), Nat.digitChar (n / 100 % 10),
    Nat.digitChar (n / 10 % 10), Nat.digitChar (n % 10)]

/-- The order of two local times as instants of one calendar: by year, then
month, day, hour, minute and second. -/
def Tm.before (a b : Tm) : Prop :=
  [a.tm_year, (a.tm_mon : Int), a.tm_mday, a.tm_hour, a.tm_min, a.tm_sec] <
    [b.tm_year, (b.tm_mon : Int), b.tm_mday, b.tm_hour, b.tm_min, b.tm_sec]

/-- The local time 2 January 2020, 00:00:00. -/
def jan2 : Tm :=
  { tm_sec := 0, tm_min := 0, tm_hour := 0, tm_mday := 2, tm_mon := 0, tm_year := 120 }

/-- The local time 1 February 2020, 00:00:00. -/
def feb1 : Tm :=
  { tm_sec := 0, tm_min := 0, tm_hour := 0, tm_mday := 1, tm_mon := 1, tm_year := 120 }

/-! ### Crash reporting: `showError`, `stackTrace`, `crashDump` -/

/-- What the crash reporter does that can be observed from outside, in the
order in which it happens. -/
inductive Event where
  /-- A statement `Log(level) << text` was executed. -/
  | logged (level : Int) (text : String)
  /-- A dump file was created at `path` by `CreateFileA`, and
  `MiniDumpWriteDump` returned `written`. -/
  | dump (path : String) (written : Bool)
  /-- The message `msg` was presented to the user by `showError`. -/
  | shown (msg : String)
  deriving DecidableEq

/-- The program state the crash reporter works on. -/
structure World where
  /-- The globals and files of the log pipeline. -/
  sink : LogState
  /-- What has been observed so far, oldest first. -/
  events : List Event
  /-- How many `Log` statements have been executed so far. -/
  logStatements : Nat

/-- The constants and settings the crash reporter takes from headers that are
not among the translated sources. -/
structure Runtime where
  /-- Value of the enumerator `LOG_FATAL` of `Logger.h`. -/
  LOG_FATAL : Int
  /-- Value of `SIGSEGV` of `signal.h`. -/
  SIGSEGV : Int
  /-- What `Options::getUserFolder()` returns. -/
  userFolder : String

/-- A statement `Log(level) << text`, the `n`-th executed one reading `envs n`
from outside: the record is handed to `log` when the gate of `Log` lets it
through. -/
def logStatement (L : Logger) (envs : Nat → CallEnv) (level : Int) (text : String)
    (w : World) : World :=
  { sink :=
      if L.emits level (envs w.logStatements).reportingLevel then
        log L (envs w.logStatements) level text w.sink
      else w.sink,
    events := w.events ++ [Event.logged level text],
    logStatements := w.logStatements + 1 }

/-- The function `showError(error)`: the message is presented (message box,
dialog program or `std::cerr`, depending on the platform) and then logged at
`LOG_FATAL`. -/
def showError (L : Logger) (R : Runtime) (envs : Nat → CallEnv) (error : String)
    (w : World) : World :=
  logStatement L envs R.LOG_FATAL error { w with events := w.events ++ [Event.shown error] }

/-- Lower-case hexadecimal digits of `n`, the output of `std::hex` and of the
conversions `%zx`. -/
def hex (n : Nat) : String :=
  String.mk (Nat.toDigits 16 n)

/-- What `dladdr` fills in for an address it finds in a loaded object. -/
structure DlInfo where
  /-- Path of the object. -/
  dli_fname : String
  /-- Address at which the object is loaded. -/
  dli_fbase : Nat
  /-- Name of the nearest symbol, `none` for `NULL`. -/
  dli_sname : Option String
  /-- Address of that symbol. -/
  dli_saddr : Nat

/-- The C library and the loader, as far as `stackTrace` uses them. -/
structure Libc where
  /-- The call `dladdr(address, &dl_info)`: `none` when it returns 0. -/
  dladdr : Nat → Option DlInfo
  /-- The call `abi::__cxa_demangle(name, ...)`: the demangled name when
  `status == 0`. -/
  demangle : String → Option String
  /-- The conversion `%p` of `snprintf`. -/
  fmtPtr : Nat → String
  /-- Number of bits of `size_t`. -/
  sizeBits : Nat

/-- The call `snprintf(buf, sizeof(buf), ...)` with `char buf[1024]`: at most
1023 characters of the formatted text are kept. -/
def snprintf (text : String) : String :=
  String.mk (text.data.take 1023)

/-- The call `backtrace(frames, size)` on a call stack given innermost frame
first: the return addresses of the `size` most recent calls. -/
def backtrace (stack : List Nat) (size : Nat) : List Nat :=
  stack.take size

/-- The subtraction `(char *)a - (char *)b` stored in a `size_t`. -/
def ptrDiff (C : Libc) (a b : Nat) : Nat :=
  (a + 2 ^ C.sizeBits - b % 2 ^ C.sizeBits) % 2 ^ C.sizeBits

/-- The text in `buf` that the loop body of `stackTrace` logs for the return
address `a` (branch without `_WIN32`). -/
def frameLine (C : Libc) (a : Nat) : String :=
  match C.dladdr a with
  | some info =>
    match info.dli_sname with
    | some mangled =>
      snprintf (info.dli_fname ++ "(" ++ (C.demangle mangled).getD mangled ++ "+0x" ++
        hex (ptrDiff C a info.dli_saddr) ++ ") [" ++ C.fmtPtr a ++ "]")
    | none =>
      snprintf (info.dli_fname ++ "(+0x" ++ hex (ptrDiff C a info.dli_fbase) ++ ") [" ++
        C.fmtPtr a ++ "]")
  | none => snprintf ("? ? [" ++ C.fmtPtr a ++ "]")

/-- What `SymFromAddr` and `SymGetLineFromAddr64` return for a frame. -/
structure SymbolInfo where
  /-- The field `symbol->Name`. -/
  Name : String
  /-- The field `symbol->Address`. -/
  Address : Nat
  /-- The fields `line->FileName` and `line->LineNumber`, `none` when
  `SymGetLineFromAddr64` fails. -/
  line : Option (String × Nat)

/-- A frame that `StackWalk64` yields. -/
structure WalkedFrame where
  /-- The field `frame.AddrPC.Offset`. -/
  pc : Nat
  /-- The symbol at `pc`, `none` when `SymFromAddr` fails. -/
  symbol : Option SymbolInfo

/-- The part of `filename` after its last backslash, all of it when it has
none: `filename.substr(filename.find_last_of('\\') + 1)`. -/
def afterLastBackslash (filename : String) : String :=
  String.mk ((filename.data.reverse.takeWhile (fun c => c != Char.ofNat 92)).reverse)

/-- The name logged for a symbol: under `__MINGW32__` the demangled form of
`"_" + Name` when demangling succeeds, otherwise `Name`. -/
def symbolName (mingw : Bool) (demangle : String → Option String) (name : String) : String :=
  if mingw then (demangle ("_" ++ name)).getD name else name

/-- The text that the loop body of `stackTrace` logs for a walked frame (branch
with `_WIN32` and `dbghelp`). -/
def walkedLine (mingw : Bool) (demangle : String → Option String) (f : WalkedFrame) : String :=
  match f.symbol with
  | some sym =>
    match sym.line with
    | some (file, lineNumber) =>
      "0x" ++ hex sym.Address ++ " " ++ symbolName mingw demangle sym.Name ++ " (" ++
        afterLastBackslash file ++ ":" ++ Nat.repr lineNumber ++ ")"
    | none => "0x" ++ hex sym.Address ++ " " ++ symbolName mingw demangle sym.Name
  | none => "??"

/-- The text logged when no stack trace can be produced. -/
def noStackTrace : String :=
  "Unfortunately, no stack trace information is available"

/-- The branch of `stackTrace` that the build selects, with what the branch
reads from outside when it runs. -/
inductive Backend where
  /-- No `_WIN32`, no Cygwin, no Android: `backtrace` and `dladdr`. `stack`
  is the call stack at the point of capture, innermost frame first. -/
  | execinfo (C : Libc) (stack : List Nat)
  /-- The build with `_WIN32` and `dbghelp`: `walk` is the sequence of frames
  for which `StackWalk64` returns true, innermost first, and `lastError` is
  what `GetLastError()` returns after the loop. -/
  | dbghelp (mingw : Bool) (demangle : String → Option String) (walk : List WalkedFrame)
      (lastError : Nat)
  /-- Cygwin, Android, `__NO_DBGHELP`. -/
  | unavailable

/-- The constant 32, the size of the array `frames` of `stackTrace`. -/
def MAX_FRAMES : Nat := 32

/-- The `Log(LOG_FATAL)` statements of a list of lines, in list order. -/
def logLines (L : Logger) (R : Runtime) (envs : Nat → CallEnv) (lines : List String)
    (w : World) : World :=
  lines.foldl (fun w line => logStatement L envs R.LOG_FATAL line w) w

/-- The function `stackTrace(ctx)`. -/
def stackTrace (L : Logger) (R : Runtime) (envs : Nat → CallEnv) (B : Backend) (w : World) :
    World :=
  match B with
  | Backend.execinfo C stack =>
    logLines L R envs ((backtrace stack MAX_FRAMES).map (frameLine C)) w
  | Backend.dbghelp mingw demangle walk lastError =>
    let w1 := logLines L R envs (walk.map (walkedLine mingw demangle)) w
    if lastError ≠ 0 then logStatement L envs R.LOG_FATAL noStackTrace w1 else w1
  | Backend.unavailable => logStatement L envs R.LOG_FATAL noStackTrace w

/-- The description of the fault that `crashDump` builds in `error` where
`_MSC_VER` is not defined: `ex` is `none` for a null pointer, otherwise the
signal number it points to. -/
def faultDescription (R : Runtime) (ex : Option Int) (err : String) : String :=
  match ex with
  | none => err
  | some signal =>
    if signal = R.SIGSEGV then "Segmentation fault."
    else "signal " ++ decimal signal

/-- The message that `crashDump` builds in `msg` for the fault description
`error`. -/
def crashMessage (error logFile : String) : String :=
  "OpenXcom has crashed: " ++ error ++ "\n" ++
  "Log file: " ++ logFile ++ "\n" ++
  "If this error was unexpected, please report it on OpenXcom forum or discord." ++ "\n" ++
  "The following can help us solve the problem:" ++ "\n" ++
  "1. a saved game from just before the crash (helps 98%)" ++ "\n" ++
  "2. a detailed description how to reproduce the crash (helps 80%)" ++ "\n" ++
  "3. a log file (helps 10%)" ++ "\n" ++
  "4. a screenshot of this error message (helps 5%)"

/-- The function `crashDump(ex, err)` where `_MSC_VER` is not defined. -/
def crashDump (L : Logger) (R : Runtime) (envs : Nat → CallEnv) (B : Backend)
    (ex : Option Int) (err : String) (w : World) : World :=
  let error := faultDescription R ex err
  let w1 := logStatement L envs R.LOG_FATAL ("A fatal error has occurred: " ++ error) w
  let w2 := stackTrace L R envs B w1
  showError L R envs (crashMessage error (getLogFileName w2.sink)) w2

/-- The constant `EXCEPTION_CODE_CXX`. -/
def EXCEPTION_CODE_CXX : Nat := 0xe06d7363

/-- The constant `EXCEPTION_ACCESS_VIOLATION` of the Windows headers. -/
def EXCEPTION_ACCESS_VIOLATION : Nat := 0xC0000005

/-- What `crashDump` reads through a non-null `PEXCEPTION_POINTERS`. -/
structure ExceptionPointers where
  /-- The field `ExceptionRecord->ExceptionCode`. -/
  ExceptionCode : Nat
  /-- What `what()` returns for the object at `ExceptionInformation[1]`. -/
  what : String

/-- The description of the fault that `crashDump` builds in `error` under
`_MSC_VER`. -/
def faultDescriptionMSVC (e : ExceptionPointers) : String :=
  if e.ExceptionCode = EXCEPTION_CODE_CXX then e.what
  else if e.ExceptionCode = EXCEPTION_ACCESS_VIOLATION then "Memory access violation."
  else "code 0x" ++ hex e.ExceptionCode

/-- The name of the dump file: `Options::getUserFolder() + now() + ".dmp"`. -/
def dumpName (R : Runtime) (timestamp : String) : String :=
  R.userFolder ++ timestamp ++ ".dmp"

/-- What the dump step of `crashDump` reads from outside. -/
structure DumpEnv where
  /-- What `now()` returns when the name is built. -/
  timestamp : String
  /-- Whether `MiniDumpWriteDump` succeeds. -/
  written : Bool
  /-- What `GetLastError()` returns after a failure. -/
  lastError : Nat

/-- The function `crashDump(ex, err)` under `_MSC_VER`; `err` is not used on
this path. A null `ex` is dereferenced by the first statement, for which no
behaviour is defined: `none`. -/
def crashDumpMSVC (L : Logger) (R : Runtime) (envs : Nat → CallEnv) (B : Backend)
    (D : DumpEnv) (ex : Option ExceptionPointers) (_err : String) (w : World) : Option World :=
  match ex with
  | none => none
  | some e =>
    let error := faultDescriptionMSVC e
    let w1 := logStatement L envs R.LOG_FATAL ("A fatal error has occurred: " ++ error) w
    let w2 := stackTrace L R envs B w1
    let name := dumpName R D.timestamp
    let w3 : World := { w2 with events := w2.events ++ [Event.dump name D.written] }
    let w4 :=
      if D.written then logStatement L envs R.LOG_FATAL ("Crash dump generated at " ++ name) w3
      else
        logStatement L envs R.LOG_FATAL ("No crash dump generated: " ++ Nat.repr D.lastError) w3
    some (showError L R envs (crashMessage error (getLogFileName w4.sink)) w4)

/-- The number of times `showError` has presented a message. -/
def shownCount (events : List Event) : Nat :=
  (events.filter (fun e => match e with | Event.shown _ => true | _ => false)).length

/-- The texts of the `Log(level)` statements among `events`, in order. -/
def loggedAt (level : Int) (events : List Event) : List String :=
  events.filterMap (fun e =>
    match e with
    | Event.logged l text => if l = level then some text else none
    | _ => none)

/-- A `Runtime` with `LOG_FATAL = 0`, `SIGSEGV = 11` and a user folder. -/
def stdRuntime : Runtime :=
  { LOG_FATAL := 0, SIGSEGV := 11, userFolder := "C:/Users/x/Documents/OpenXcom/" }

/-- A world at process start. -/
def initialWorld : World :=
  { sink := initialState, events := [], logStatements := 0 }

/-- The lines that `stackTrace` logs, in order. -/
def stackTraceLines (B : Backend) : List String :=
  match B with
  | Backend.execinfo C stack => (backtrace stack MAX_FRAMES).map (frameLine C)
  | Backend.dbghelp mingw demangle walk lastError =>
    walk.map (walkedLine mingw demangle) ++ (if lastError ≠ 0 then [noStackTrace] else [])
  | Backend.unavailable => [noStackTrace]

/-- The paths of the dump files created, in order. -/
def dumpPaths (events : List Event) : List String :=
  events.filterMap (fun e =>
    match e with
    | Event.dump path _ => some path
    | _ => none)

/-- A loader that resolves no address, with `%p` printing `0x` and the
hexadecimal digits. -/
def plainLibc : Libc :=
  { dladdr := fun _ => none, demangle := fun _ => none, fmtPtr := fun a => "0x" ++ hex a,
    sizeBits := 64 }

/-- Two frames for which `SymFromAddr` fails. -/
def unresolvedWalk : List WalkedFrame :=
  [{ pc := 0x401000, symbol := none }, { pc := 0x401064, symbol := none }]

/-- A dump step at a given timestamp that succeeds. -/
def dumpAt (timestamp : String) : DumpEnv :=
  { timestamp := timestamp, written := true, lastError := 0 }

/-- Two crashes reported one after the other by `crashDump` under `_MSC_VER`,
the first at timestamp `t1` for the exception `e1`, the second at `t2` for
`e2`. -/
def twoCrashes (t1 t2 : String) (e1 e2 : ExceptionPointers) : Option World :=
  (crashDumpMSVC stdLogger stdRuntime (fun _ => constEnv 4 true) Backend.unavailable
      (dumpAt t1) (some e1) "" initialWorld).bind
    (crashDumpMSVC stdLogger stdRuntime (fun _ => constEnv 4 true) Backend.unavailable
      (dumpAt t2) (some e2) "")

/-- A fault as the runtime delivers it: the arguments of `crashDump`. -/
structure Fault where
  /-- The argument `ex`: `none` for null, otherwise the signal number. -/
  ex : Option Int
  /-- The argument `err`. -/
  err : String

/-- The world in which a run of `crashDump` for the fault `f` stands after its
first statement, the `Log(LOG_FATAL)` of the fault, and before `stackTrace`. -/
def crashDumpStarted (L : Logger) (R : Runtime) (envs : Nat → CallEnv) (f : Fault)
    (w : World) : World :=
  logStatement L envs R.LOG_FATAL
    ("A fatal error has occurred: " ++ faultDescription R f.ex f.err) w

/-- The value `std::string::npos`, the largest `size_t` (64 bits). -/
def npos : Nat := 2 ^ 64 - 1

/-- The subtraction of two `size_t` values, which wraps around. -/
def sizeSub (a b : Nat) : Nat :=
  (a + 2 ^ 64 - b % 2 ^ 64) % 2 ^ 64

/-- The index of the first `c` in `s`, `none` when there is none. -/
def firstIndexOf (c : Char) : List Char → Option Nat
  | [] => none
  | x :: xs => if x = c then some 0 else (firstIndexOf c xs).map (fun i => i + 1)

/-- The index of the last `c` in `s`, `none` when there is none. -/
def lastIndexOf (c : Char) : List Char → Option Nat
  | [] => none
  | x :: xs =>
    match lastIndexOf c xs with
    | some i => some (i + 1)
    | none => if x = c then some 0 else none

/-- The call `s.find_first_of(c)`: `none` stands for `npos`. -/
def find_first_of (s : String) (c : Char) : Option Nat :=
  firstIndexOf c s.data

/-- The call `s.find_last_of(c)`: `none` stands for `npos`. -/
def find_last_of (s : String) (c : Char) : Option Nat :=
  lastIndexOf c s.data

/-- The call `s.substr(pos, len)`: the characters from `pos` on, at most `len`
of them; `none` when `pos > s.size()`, where `std::out_of_range` is thrown. -/
def substr (s : String) (pos len : Nat) : Option String :=
  if pos > s.length then none else some (String.mk ((s.data.drop pos).take len))

/-- The function `baseFilename(path)` with a bound on the depth of its
recursion: `none` when the bound is reached or `substr` throws. -/
def baseFilenameFuel : Nat → String → Option String
  | 0, _ => none
  | fuel + 1, path =>
    match find_last_of path '/' with
    | none => some path
    | some sep =>
      if sep = path.length - 1 then
        (substr path 0 (path.length - 1)).bind (baseFilenameFuel fuel)
      else substr path (sep + 1) npos

/-- The function `baseFilename(path)`; every recursive call is made on a
shorter string, so a depth of one more than the length is never reached. -/
def baseFilename (path : String) : Option String :=
  baseFilenameFuel (path.length + 1) path

/-- The function `noExt(filename)`; `none` when `substr` throws. -/
def noExt (filename : String) : Option String :=
  match find_last_of filename '.' with
  | none => some filename
  | some dot => substr filename 0 dot

/-- The function `getExt(filename)`; `none` when `substr` throws. -/
def getExt (filename : String) : Option String :=
  match find_last_of filename '.' with
  | none => some ""
  | some dot => substr filename dot npos

/-- The function `getLocale()` without `_WIN32` and `__ANDROID__`. `localeName`
is what `std::locale("").name()` returns, `none` when the constructor throws
`std::runtime_error`; the result is `none` when `substr` throws
`std::out_of_range`. -/
def getLocale (localeName : Option String) : Option String :=
  match localeName with
  | none => some "x-"
  | some name0 =>
    let dash := find_first_of name0 '_'
    let dot := find_first_of name0 '.'
    let name : Option String :=
      match dot with
      | some d => substr name0 0 (sizeSub d 1)
      | none => some name0
    name.bind (fun name =>
      match dash with
      | some d =>
        (substr name 0 (sizeSub d 1)).bind (fun language =>
          (substr name (sizeSub d 1) npos).bind (fun country =>
            some (language ++ "-" ++ country)))
      | none => some (name ++ "-"))

/-! ### The save header: `getYamlSaveHeader` -/

/-- The constant `chunksize` of `getYamlSaveHeader`. -/
def chunksize : Nat := 4096

/-- The sequence that ends the header of a save. -/
def headerEnd : List Char := ['\n', '-', '-', '-']

/-- The call `strstr(hay, needle) != NULL` on the zero-terminated string that
starts with `hay`: the search stops at the first zero byte. -/
def strstr (hay needle : List Char) : Bool :=
  decide (List.IsInfix needle (hay.takeWhile (fun c => c != Char.ofNat 0)))

/-- What `getYamlSaveHeader` reads from outside. -/
structure ReadEnv where
  /-- Whether `SDL_RWFromFile` opens the file. -/
  openOk : Bool
  /-- The bytes of the file. -/
  file : List Char
  /-- How many bytes the `k`-th call of `SDL_RWread` delivers at most, apart
  from the limits of the request and of the end of the file. -/
  cap : Nat → Nat
  /-- Whether `SDL_malloc` (for 0) and the `k`-th `SDL_realloc` succeed. -/
  allocOk : Nat → Bool
  /-- What `SDL_GetError()` returns. -/
  sdlError : String

/-- How a call of `getYamlSaveHeader` ends. -/
inductive ReadOutcome where
  /-- The stream over these bytes is returned. -/
  | bytes (data : List Char)
  /-- An `Exception` with this message is thrown. -/
  | exception (err : String)
  /-- The bound on the number of iterations is reached. -/
  | unfinished
  deriving DecidableEq

/-- The loop `while(true)` of `getYamlSaveHeader` with a bound on the number
of iterations; `k` counts the iterations made, `data` holds the `size` bytes
read so far and `offs` is the local of that name. -/
def readLoop (E : ReadEnv) : Nat → Nat → List Char → Nat → ReadOutcome
  | 0, _, _, _ => ReadOutcome.unfinished
  | fuel + 1, k, data, offs =>
    let actually_read := min (min (E.cap k) chunksize) (E.file.length - data.length)
    if actually_read = 0 then ReadOutcome.bytes data
    else
      let data1 := data ++ (E.file.drop data.length).take actually_read
      let search_from := if offs > 4 then offs - 4 else 0
      if strstr (data1.drop search_from) headerEnd then ReadOutcome.bytes data1
      else if E.allocOk (k + 1) then readLoop E fuel (k + 1) data1 data1.length
      else ReadOutcome.exception E.sdlError

/-- The function `getYamlSaveHeader(filename)`: the bytes of the stream it
returns. Every iteration that does not leave the loop reads at least one
byte, so one more iteration than the file has bytes is never reached. -/
def getYamlSaveHeader (E : ReadEnv) (filename : String) : ReadOutcome :=
  if E.openOk then
    if E.allocOk 0 then readLoop E (E.file.length + 1) 0 [] 0
    else ReadOutcome.exception E.sdlError
  else ReadOutcome.exception ("Failed to read " ++ filename ++ ": " ++ E.sdlError)

/-- A readable file whose reads deliver `n` bytes at a time. -/
def chunkedFile (file : String) (n : Nat) : ReadEnv :=
  { openOk := true, file := file.data, cap := fun _ => n, allocOk := fun _ => true,
    sdlError := "" }

/-- A configured state whose buffer holds `LOG_BUFFER_LIMIT + 1 = 1025`
records, all at `LOG_ERROR`: the most that buffering leaves behind. -/
def fullBufferState : LogState :=
  { initialState with
    logFileName := "openxcom.log",
    logBuffer := (1, "oldest\n") :: List.replicate 1024 (1, "x\n") }

/-- The state `fullBufferState` after a `log` call all of whose writes fail. -/
def fullBufferAfterFailure : LogState :=
  log stdLogger (constEnv 4 false) 1 "a" fullBufferState

/-! ## Auxiliary facts -/

theorem LOG_BUFFER_LIMIT_eq : LOG_BUFFER_LIMIT = 1024 := by decide

theorem dropEarliest_of_le {buf : List (Int × String)} (h : buf.length ≤ LOG_BUFFER_LIMIT) :
    dropEarliest buf = buf := by
  unfold dropEarliest
  rw [if_neg (by omega)]

theorem dropEarliest_of_gt {buf : List (Int × String)} (h : LOG_BUFFER_LIMIT < buf.length) :
    dropEarliest buf = buf.tail := by
  unfold dropEarliest
  rw [if_pos h]

theorem dropEarliest_suffix (buf : List (Int × String)) :
    List.IsSuffix (dropEarliest buf) buf := by
  unfold dropEarliest
  split
  · exact List.tail_suffix buf
  · exact List.suffix_refl buf

theorem dropEarliest_eq_drop (buf : List (Int × String)) :
    dropEarliest buf = buf.drop (if LOG_BUFFER_LIMIT < buf.length then 1 else 0) := by
  unfold dropEarliest
  split
  · cases buf <;> simp
  · simp

theorem length_dropEarliest (buf : List (Int × String)) :
    (dropEarliest buf).length = if LOG_BUFFER_LIMIT < buf.length then buf.length - 1 else buf.length := by
  unfold dropEarliest
  split <;> simp

theorem concatTexts_append (a b : List (Int × String)) :
    concatTexts (a ++ b) = concatTexts a ++ concatTexts b := by
  induction a with
  | nil => simp [concatTexts]
  | cons r rest ih => simp [concatTexts, ih, String.append_assoc]

theorem writable_append (rl : Int) (a b : List (Int × String)) :
    writable rl (a ++ b) = writable rl a ++ writable rl b := by
  simp [writable]

theorem writable_cons_pos {rl : Int} {r : Int × String} (h : rl ≥ r.1) (b : List (Int × String)) :
    writable rl (r :: b) = r :: writable rl b := by
  simp [writable, h]

theorem writable_cons_neg {rl : Int} {r : Int × String} (h : ¬ rl ≥ r.1) (b : List (Int × String)) :
    writable rl (r :: b) = writable rl b := by
  simp [writable, h]

theorem persistedText_append (rl : Int) (a b : List (Int × String)) :
    persistedText rl (a ++ b) = persistedText rl a ++ persistedText rl b := by
  simp [persistedText, writable_append, concatTexts_append]

theorem fileContent_appendFile_same (fs : Files) (name data : String) :
    fileContent (appendFile fs name data) name = fileContent fs name ++ data := by
  simp [fileContent, appendFile]

theorem appendFile_other (fs : Files) (name data p : String) (h : p ≠ name) :
    appendFile fs name data p = fs p := by
  simp [appendFile, h]

/-- The flush loop when every write it makes succeeds: the buffer is drained
and the file has grown by the texts of the records that pass the threshold. -/
theorem flushLoop_ok (L : Logger) (env : CallEnv) (name : String) :
    ∀ (buf : List (Int × String)) (k : Nat) (fs : Files),
      (∀ i, i < (writable env.reportingLevel buf).length → env.writeOk (k + i) = true) →
      (flushLoop L env name buf k fs).failed = false ∧
      (flushLoop L env name buf k fs).buffer = [] ∧
      (flushLoop L env name buf k fs).writes = k + (writable env.reportingLevel buf).length ∧
      fileContent (flushLoop L env name buf k fs).files name =
        fileContent fs name ++ persistedText env.reportingLevel buf ∧
      ∀ p, p ≠ name → (flushLoop L env name buf k fs).files p = fs p := by
  intro buf
  induction buf with
  | nil =>
    intro k fs _
    simp [flushLoop, writable, persistedText, concatTexts]
  | cons r rest ih =>
    intro k fs h
    by_cases hr : env.reportingLevel ≥ r.1
    · have h0 : env.writeOk k = true := by
        have := h 0 (by simp [writable_cons_pos hr])
        simpa using this
      have hrest : ∀ i, i < (writable env.reportingLevel rest).length →
          env.writeOk (k + 1 + i) = true := by
        intro i hi
        have := h (i + 1) (by simp [writable_cons_pos hr]; omega)
        rw [show k + 1 + i = k + (i + 1) by omega]
        exact this
      obtain ⟨h1, h2, h3, h4, h5⟩ := ih (k + 1) (appendFile fs name r.2) hrest
      simp only [flushLoop, if_pos hr, logToFile, h0, if_true]
      refine ⟨h1, h2, ?_, ?_, ?_⟩
      · rw [h3, writable_cons_pos hr]; simp; omega
      · rw [h4, fileContent_appendFile_same, persistedText, persistedText,
          writable_cons_pos hr, concatTexts, String.append_assoc]
      · intro p hp
        rw [h5 p hp, appendFile_other _ _ _ _ hp]
    · have hrest : ∀ i, i < (writable env.reportingLevel rest).length →
          env.writeOk (k + i) = true := by
        intro i hi
        exact h i (by rw [writable_cons_neg hr]; exact hi)
      obtain ⟨h1, h2, h3, h4, h5⟩ := ih k fs hrest
      simp only [flushLoop, if_neg hr]
      refine ⟨h1, h2, ?_, ?_, h5⟩
      · rw [h3, writable_cons_neg hr]
      · rw [h4, persistedText, persistedText, writable_cons_neg hr]

/-- The flush loop when its `j`-th write is the first that fails: the records
before the failed one are gone (written when they pass the threshold), the
failed record and what follows it stay, and the failure entry is at the back. -/
theorem flushLoop_fail (L : Logger) (env : CallEnv) (name : String) :
    ∀ (buf : List (Int × String)) (k j : Nat) (fs : Files),
      j < (writable env.reportingLevel buf).length →
      (∀ i, i < j → env.writeOk (k + i) = true) →
      env.writeOk (k + j) = false →
      ∃ pre r post, buf = pre ++ r :: post ∧ env.reportingLevel ≥ r.1 ∧
        (writable env.reportingLevel pre).length = j ∧
        (flushLoop L env name buf k fs).failed = true ∧
        (flushLoop L env name buf k fs).buffer = r :: post ++ [failureEntry L env name] ∧
        (flushLoop L env name buf k fs).writes = k + j + 1 ∧
        fileContent (flushLoop L env name buf k fs).files name =
          fileContent fs name ++ persistedText env.reportingLevel pre ∧
        ∀ p, p ≠ name → (flushLoop L env name buf k fs).files p = fs p := by
  intro buf
  induction buf with
  | nil =>
    intro k j fs hj
    simp [writable] at hj
  | cons r rest ih =>
    intro k j fs hj hok hfail
    by_cases hr : env.reportingLevel ≥ r.1
    · cases j with
      | zero =>
        have h0 : env.writeOk k = false := by simpa using hfail
        refine ⟨[], r, rest, rfl, hr, rfl, ?_⟩
        simp [flushLoop, if_pos hr, logToFile, h0, failureEntry, persistedText, writable,
          concatTexts]
      | succ j' =>
        have h0 : env.writeOk k = true := by simpa using hok 0 (by omega)
        have hj' : j' < (writable env.reportingLevel rest).length := by
          rw [writable_cons_pos hr] at hj
          simpa using hj
        have hok' : ∀ i, i < j' → env.writeOk (k + 1 + i) = true := by
          intro i hi
          rw [show k + 1 + i = k + (i + 1) by omega]
          exact hok (i + 1) (by omega)
        have hfail' : env.writeOk (k + 1 + j') = false := by
          rw [show k + 1 + j' = k + (j' + 1) by omega]
          exact hfail
        obtain ⟨pre, r', post, e, hr', hlen, h1, h2, h3, h4, h5⟩ :=
          ih (k + 1) j' (appendFile fs name r.2) hj' hok' hfail'
        refine ⟨r :: pre, r', post, by rw [e]; rfl, hr', ?_, ?_⟩
        · rw [writable_cons_pos hr]; simp [hlen]
        · simp only [flushLoop, if_pos hr, logToFile, h0, if_true]
          refine ⟨h1, h2, by rw [h3]; omega, ?_, ?_⟩
          · rw [h4, fileContent_appendFile_same, persistedText, persistedText,
              writable_cons_pos hr, concatTexts, String.append_assoc]
          · intro p hp
            rw [h5 p hp, appendFile_other _ _ _ _ hp]
    · have hj' : j < (writable env.reportingLevel rest).length := by
        rw [writable_cons_neg hr] at hj
        exact hj
      obtain ⟨pre, r', post, e, hr', hlen, h1, h2, h3, h4, h5⟩ := ih k j fs hj' hok hfail
      refine ⟨r :: pre, r', post, by rw [e]; rfl, hr', ?_, ?_⟩
      · rw [writable_cons_neg hr]; exact hlen
      · simp only [flushLoop, if_neg hr]
        refine ⟨h1, h2, h3, ?_, h5⟩
        rw [h4, persistedText, persistedText, writable_cons_neg hr]

/-- In buffering mode `log` only touches the buffer and `stderr`. -/
theorem log_buffering (L : Logger) (env : CallEnv) (level : Int) (baremsg : String)
    (s : LogState) (h : s.logFileName = "" ∨ env.reportingLevel = L.LOG_UNCENSORED) :
    log L env level baremsg s =
      { s with logBuffer := dropEarliest s.logBuffer ++ [record L env level baremsg],
               stderr := if env.reportingLevel ≥ L.LOG_DEBUG
                 then s.stderr ++ formatMsg L env.now level baremsg else s.stderr } := by
  simp only [log, if_pos h, record]

/-- A `log` call in flushing mode all of whose writes succeed. -/
theorem log_flush_ok (L : Logger) (env : CallEnv) (level : Int) (baremsg : String)
    (s : LogState) (hname : s.logFileName ≠ "")
    (hlevel : env.reportingLevel ≠ L.LOG_UNCENSORED)
    (hok : ∀ i, i ≤ (writable env.reportingLevel (dropEarliest s.logBuffer)).length →
      env.writeOk i = true) :
    (log L env level baremsg s).logBuffer = [] ∧
    fileContent (log L env level baremsg s).files s.logFileName =
      fileContent s.files s.logFileName ++
        persistedText env.reportingLevel (dropEarliest s.logBuffer) ++
        formatMsg L env.now level baremsg ∧
    (∀ p, p ≠ s.logFileName → (log L env level baremsg s).files p = s.files p) ∧
    (log L env level baremsg s).logFileName = s.logFileName ∧
    (log L env level baremsg s).logToFileCalls = s.logToFileCalls +
      (writable env.reportingLevel (dropEarliest s.logBuffer)).length + 1 := by
  have hmode : ¬ (s.logFileName = "" ∨ env.reportingLevel = L.LOG_UNCENSORED) := by
    rintro (h | h)
    · exact hname h
    · exact hlevel h
  obtain ⟨h1, h2, h3, h4, h5⟩ := flushLoop_ok L env s.logFileName (dropEarliest s.logBuffer) 0
    s.files (by intro i hi; rw [Nat.zero_add]; exact hok i (by omega))
  have hw : env.writeOk (flushLoop L env s.logFileName (dropEarliest s.logBuffer) 0
      s.files).writes = true := by
    rw [h3, Nat.zero_add]
    exact hok _ (le_refl _)
  simp only [log, if_neg hmode, h1, hw, logToFile, if_true, Bool.false_eq_true, if_false]
  refine ⟨h2, ?_, ?_, trivial, ?_⟩
  · rw [fileContent_appendFile_same, h4]
  · intro p hp
    rw [appendFile_other _ _ _ _ hp, h5 p hp]
  · rw [h3, Nat.zero_add]

/-- A `log` call in flushing mode whose `k`-th write is the first that fails,
be it the write of a buffered record or the write of the current one. -/
theorem log_flush_fail (L : Logger) (env : CallEnv) (level : Int) (baremsg : String)
    (s : LogState) (k : Nat) (hname : s.logFileName ≠ "")
    (hlevel : env.reportingLevel ≠ L.LOG_UNCENSORED)
    (hk : k ≤ (writable env.reportingLevel (dropEarliest s.logBuffer)).length)
    (hok : ∀ i, i < k → env.writeOk i = true) (hfail : env.writeOk k = false) :
    ∃ pre post, dropEarliest s.logBuffer = pre ++ post ∧
      (writable env.reportingLevel pre).length = k ∧
      (∀ r, post.head? = some r → env.reportingLevel ≥ r.1) ∧
      (log L env level baremsg s).logBuffer =
        post ++ (if post = [] then [] else [failureEntry L env s.logFileName]) ++
          [record L env level baremsg] ∧
      fileContent (log L env level baremsg s).files s.logFileName =
        fileContent s.files s.logFileName ++ persistedText env.reportingLevel pre ∧
      (∀ p, p ≠ s.logFileName → (log L env level baremsg s).files p = s.files p) ∧
      (log L env level baremsg s).logFileName = s.logFileName ∧
      (log L env level baremsg s).logToFileCalls = s.logToFileCalls + k + 1 := by
  have hmode : ¬ (s.logFileName = "" ∨ env.reportingLevel = L.LOG_UNCENSORED) := by
    rintro (h | h)
    · exact hname h
    · exact hlevel h
  rcases Nat.lt_or_ge k (writable env.reportingLevel (dropEarliest s.logBuffer)).length with
    hlt | hge
  · obtain ⟨pre, r, post, e, hr, hlen, h1, h2, h3, h4, h5⟩ :=
      flushLoop_fail L env s.logFileName (dropEarliest s.logBuffer) 0 k s.files hlt
        (by intro i hi; rw [Nat.zero_add]; exact hok i hi) (by rw [Nat.zero_add]; exact hfail)
    refine ⟨pre, r :: post, e, hlen, ?_, ?_⟩
    · intro r' hr'
      simp at hr'
      rw [← hr']
      exact hr
    · simp only [log, if_neg hmode, h1, if_true]
      refine ⟨?_, h4, h5, trivial, ?_⟩
      · rw [h2]
        simp [record]
      · rw [h3, Nat.zero_add, Nat.add_assoc]
  · have hkeq : k = (writable env.reportingLevel (dropEarliest s.logBuffer)).length :=
      Nat.le_antisymm hk hge
    obtain ⟨h1, h2, h3, h4, h5⟩ := flushLoop_ok L env s.logFileName (dropEarliest s.logBuffer) 0
      s.files (by intro i hi; rw [Nat.zero_add]; exact hok i (by omega))
    have hw : env.writeOk (flushLoop L env s.logFileName (dropEarliest s.logBuffer) 0
        s.files).writes = false := by
      rw [h3, Nat.zero_add, ← hkeq]
      exact hfail
    refine ⟨dropEarliest s.logBuffer, [], by simp, hkeq.symm, by simp, ?_⟩
    simp only [log, if_neg hmode, h1, hw, logToFile, Bool.false_eq_true, if_false]
    refine ⟨?_, ?_, h5, trivial, ?_⟩
    · rw [h2]
      simp [record]
    · rw [h4]
    · rw [h3, Nat.zero_add, ← hkeq]

theorem flushLoop_buffer_of_not_failed (L : Logger) (env : CallEnv) (name : String) :
    ∀ (buf : List (Int × String)) (k : Nat) (fs : Files),
      (flushLoop L env name buf k fs).failed = false →
      (flushLoop L env name buf k fs).buffer = [] := by
  intro buf
  induction buf with
  | nil => intro k fs _; rfl
  | cons r rest ih =>
    intro k fs h
    by_cases hr : env.reportingLevel ≥ r.1
    · by_cases hw : env.writeOk k = true
      · simp only [flushLoop, if_pos hr, logToFile, hw, if_true] at h ⊢
        exact ih _ _ h
      · simp [flushLoop, if_pos hr, logToFile, hw] at h
    · simp only [flushLoop, if_neg hr] at h ⊢
      exact ih _ _ h

/-- Before any destination is configured a run of `log` calls keeps the last
`LOG_BUFFER_LIMIT + 1` records and touches no file. -/
theorem run_buffering (L : Logger) (s : LogState) (hname : s.logFileName = "")
    (hbuf : s.logBuffer = []) (cs : List (CallEnv × Int × String)) :
    (run L s (logCalls cs)).logFileName = "" ∧
    (run L s (logCalls cs)).files = s.files ∧
    (run L s (logCalls cs)).logToFileCalls = s.logToFileCalls ∧
    (run L s (logCalls cs)).logBuffer =
      (records L cs).drop (cs.length - (LOG_BUFFER_LIMIT + 1)) := by
  induction cs using List.reverseRecOn with
  | nil => simp [run, logCalls, records, hname, hbuf]
  | append_singleton cs c ih =>
    obtain ⟨h1, h2, h3, h4⟩ := ih
    have hrun : run L s (logCalls (cs ++ [c])) =
        log L c.1 c.2.1 c.2.2 (run L s (logCalls cs)) := by
      simp [logCalls, run, step, List.foldl_append]
    rw [hrun, log_buffering L c.1 c.2.1 c.2.2 _ (Or.inl h1)]
    refine ⟨h1, h2, h3, ?_⟩
    simp only []
    have hlen : (records L cs).length = cs.length := by simp [records]
    rw [h4, dropEarliest_eq_drop, List.drop_drop, List.length_drop, hlen]
    have hrec : records L (cs ++ [c]) = records L cs ++ [record L c.1 c.2.1 c.2.2] := by
      simp [records]
    rw [hrec, List.length_append, List.length_singleton]
    have hd : ∀ d, d ≤ cs.length → List.drop d (records L cs) ++ [record L c.1 c.2.1 c.2.2] =
        List.drop d (records L cs ++ [record L c.1 c.2.1 c.2.2]) := by
      intro d hd
      rw [List.drop_append_of_le_length (by rw [hlen]; exact hd)]
    generalize LOG_BUFFER_LIMIT = M
    by_cases hM : M < cs.length - (cs.length - (M + 1))
    · rw [if_pos hM, hd _ (by omega)]
      congr 1
      omega
    · rw [if_neg hM, hd _ (by omega)]
      congr 1
      omega

theorem dropEarliest_drop (R : List (Int × String)) (d : Nat) :
    dropEarliest (R.drop d) =
      R.drop (d + if LOG_BUFFER_LIMIT < R.length - d then 1 else 0) := by
  rw [dropEarliest_eq_drop, List.drop_drop, List.length_drop]

theorem dropEarliest_append_singleton (A : List (Int × String)) (x : Int × String) :
    dropEarliest (A ++ [x]) =
      A.drop (if LOG_BUFFER_LIMIT < A.length + 1 then 1 else 0) ++ [x] := by
  rw [dropEarliest_eq_drop, List.length_append, List.length_singleton]
  have hM := LOG_BUFFER_LIMIT_eq
  by_cases h : LOG_BUFFER_LIMIT < A.length + 1
  · rw [if_pos h, List.drop_append_of_le_length (by omega)]
  · rw [if_neg h]
    rfl

/-- What `setLogFileName` does while no destination is configured. -/
theorem setLogFileName_unconfigured (L : Logger) (env : CallEnv) (name : String)
    (s : LogState) (h : s.logFileName = "") :
    (setLogFileName L env name s).logFileName = name ∧
    (setLogFileName L env name s).files = (deleteFile env.deleteOk s.files name).1 ∧
    (setLogFileName L env name s).logToFileCalls = s.logToFileCalls ∧
    (setLogFileName L env name s).logBuffer =
      (if L.emits L.LOG_DEBUG env.reportingLevel = true then dropEarliest s.logBuffer
        else s.logBuffer) ++ ownRecord L env name s.logBuffer.length := by
  by_cases he : L.emits L.LOG_DEBUG env.reportingLevel = true
  · have key := log_buffering L env L.LOG_DEBUG
      (setLogFileNameText name s.logFileName s.logBuffer.length)
      { s with files := (deleteFile env.deleteOk s.files name).1 } (Or.inl h)
    simp only [setLogFileName, he, if_true, ownRecord]
    rw [key]
    simp [h]
  · simp [setLogFileName, he, ownRecord]

/-- A `log` call in flushing mode whose very first write, that of the front
record, fails. -/
theorem log_head_write_fails (L : Logger) (env : CallEnv) (level : Int) (baremsg : String)
    (s : LogState) (r : Int × String) (rest : List (Int × String))
    (hname : s.logFileName ≠ "") (hlevel : env.reportingLevel ≠ L.LOG_UNCENSORED)
    (hbuf : dropEarliest s.logBuffer = r :: rest) (hr : env.reportingLevel ≥ r.1)
    (hfail : env.writeOk 0 = false) :
    (log L env level baremsg s).logBuffer =
      r :: rest ++ [failureEntry L env s.logFileName, record L env level baremsg] ∧
    (log L env level baremsg s).files = s.files ∧
    (log L env level baremsg s).logFileName = s.logFileName := by
  have hmode : ¬ (s.logFileName = "" ∨ env.reportingLevel = L.LOG_UNCENSORED) := by
    rintro (h | h)
    · exact hname h
    · exact hlevel h
  simp [log, if_neg hmode, hbuf, flushLoop, hr, logToFile, hfail, failureEntry, record]

/-- Under a sink that fails every write, a `log` call whose records all pass
the threshold makes the buffer longer. -/
theorem log_all_fail_grows (L : Logger) (env : CallEnv) (level : Int) (baremsg : String)
    (s : LogState) (hname : s.logFileName ≠ "")
    (hlevel : env.reportingLevel ≠ L.LOG_UNCENSORED) (hfail : env.writeOk 0 = false)
    (hall : ∀ r ∈ s.logBuffer, env.reportingLevel ≥ r.1)
    (hcur : env.reportingLevel ≥ level) (herr : env.reportingLevel ≥ L.LOG_ERROR) :
    (log L env level baremsg s).logFileName = s.logFileName ∧
    (∀ r ∈ (log L env level baremsg s).logBuffer, env.reportingLevel ≥ r.1) ∧
    s.logBuffer.length + 1 ≤ (log L env level baremsg s).logBuffer.length := by
  have hM := LOG_BUFFER_LIMIT_eq
  have hlen := length_dropEarliest s.logBuffer
  have hsub : ∀ r ∈ dropEarliest s.logBuffer, env.reportingLevel ≥ r.1 :=
    fun r hr => hall r ((dropEarliest_suffix s.logBuffer).subset hr)
  cases hd : dropEarliest s.logBuffer with
  | nil =>
    obtain ⟨pre, post, e, _, _, hbuf, _, _, hn, _⟩ :=
      log_flush_fail L env level baremsg s 0 hname hlevel (Nat.zero_le _)
        (fun _ h => absurd h (Nat.not_lt_zero _)) hfail
    rw [hd] at e
    have hpost : post = [] := (List.append_eq_nil.mp e.symm).2
    rw [hpost] at hbuf
    rw [hd, List.length_nil] at hlen
    refine ⟨hn, ?_, ?_⟩
    · rw [hbuf]
      intro r hr
      simp [record] at hr
      rw [hr]
      exact hcur
    · have h0 : s.logBuffer.length = 0 := by split at hlen <;> omega
      rw [hbuf, h0]
      simp
  | cons r rest =>
    obtain ⟨hbuf, _, hn⟩ := log_head_write_fails L env level baremsg s r rest hname hlevel hd
      (hsub r (by rw [hd]; exact List.mem_cons_self _ _)) hfail
    rw [hd, List.length_cons] at hlen
    refine ⟨hn, ?_, ?_⟩
    · rw [hbuf]
      intro x hx
      rcases List.mem_append.mp hx with hx | hx
      · exact hsub x (by rw [hd]; exact hx)
      · simp [failureEntry, record] at hx
        rcases hx with hx | hx
        · rw [hx]; exact herr
        · rw [hx]; exact hcur
    · have h0 : s.logBuffer.length ≤ rest.length + 2 := by split at hlen <;> omega
      rw [hbuf]
      simp only [List.length_append, List.length_cons, List.length_nil]
      omega

/-! ## The claims about the pending buffer and the destination file -/

/-- Claim C1, the code at the failing input: from the initial state,
`LOG_BUFFER_LIMIT + 1 = 1025` consecutive `log` calls (any level, any message,
any reporting level, any write outcomes) leave more than `LOG_BUFFER_LIMIT`
records in the pending buffer, so the bound of 1024 does not hold. -/
theorem log_buffer_exceeds_limit (L : Logger) (env : CallEnv) (level : Int)
    (baremsg : String) :
    LOG_BUFFER_LIMIT <
      (run L initialState
        (List.replicate (LOG_BUFFER_LIMIT + 1) (Call.log env level baremsg))).logBuffer.length := by
  have hcalls : List.replicate (LOG_BUFFER_LIMIT + 1) (Call.log env level baremsg) =
      logCalls (List.replicate (LOG_BUFFER_LIMIT + 1) (env, level, baremsg)) := by
    simp [logCalls]
  obtain ⟨_, _, _, h⟩ := run_buffering L initialState rfl rfl
    (List.replicate (LOG_BUFFER_LIMIT + 1) (env, level, baremsg))
  rw [hcalls, h]
  simp [records]

/-- Claim C2, the code at the failing input: with no destination configured
and an empty buffer, 1025 consecutive calls `log(LOG_ERROR, "disk full")`
(the `i`-th made under `envs i`) leave all 1025 records in the buffer, in
arrival order: the length is 1025, not 1024, and the first record is still at
the head. -/
theorem disk_full_1025_keeps_all (L : Logger) (envs : Fin (LOG_BUFFER_LIMIT + 1) → CallEnv) :
    (run L initialState
        (logCalls ((List.ofFn envs).map (fun e => (e, L.LOG_ERROR, "disk full"))))).logBuffer =
      (List.ofFn envs).map (fun e => record L e L.LOG_ERROR "disk full") ∧
    (run L initialState
        (logCalls ((List.ofFn envs).map
          (fun e => (e, L.LOG_ERROR, "disk full"))))).logBuffer.length = LOG_BUFFER_LIMIT + 1 ∧
    (run L initialState
        (logCalls ((List.ofFn envs).map
          (fun e => (e, L.LOG_ERROR, "disk full"))))).logBuffer.head? =
      some (record L (envs 0) L.LOG_ERROR "disk full") := by
  obtain ⟨_, _, _, h⟩ := run_buffering L initialState rfl rfl
    ((List.ofFn envs).map (fun e => (e, L.LOG_ERROR, "disk full")))
  have hall : (run L initialState
        (logCalls ((List.ofFn envs).map (fun e => (e, L.LOG_ERROR, "disk full"))))).logBuffer =
      (List.ofFn envs).map (fun e => record L e L.LOG_ERROR "disk full") := by
    rw [h, List.length_map, List.length_ofFn, Nat.sub_self, List.drop_zero, records,
      List.map_map]
    rfl
  refine ⟨hall, ?_, ?_⟩
  · rw [hall, List.length_map, List.length_ofFn]
  · rw [hall, List.ofFn_succ, List.map_cons, List.head?_cons]

/-- Claim C3 as stated fails: an error is logged before configuration, then
`setLogFileName("openxcom.log")`, then an informational record, all under the
persisting reporting level `LOG_INFO = 3` with every write succeeding. The
Debug record of `setLogFileName` is in the buffer after that call, yet the
destination file ends up holding the error record and the later record only:
the Debug record is nowhere in it. -/
theorem debug_record_not_persisted_at_info_level :
    (4, "[01-01-2020_00-00-00]\t[DEBUG]\tsetLogFileName(openxcom.log) was ''; 1 in buffer\n") ∈
      (run stdLogger initialState (infoLevelCalls.take 2)).logBuffer ∧
    fileContent (run stdLogger initialState infoLevelCalls).files "openxcom.log" =
      "[01-01-2020_00-00-00]\t[ERROR]\ta\n" ++ "[01-01-2020_00-00-00]\t[INFO]\tc\n" ∧
    ¬ List.IsInfix
      ("[01-01-2020_00-00-00]\t[DEBUG]\tsetLogFileName(openxcom.log) was ''; 1 in buffer\n").data
      (fileContent (run stdLogger initialState infoLevelCalls).files "openxcom.log").data := by
  decide

/-- Claim C3, amended: after any sequence `cs` of `log` calls made from the
initial state (over any files `fs0`), then `setLogFileName(name)` with a
non-empty `name`, then a `log` call under a reporting level other than
`LOG_UNCENSORED` whose writes all succeed, the pending buffer is empty and the
destination file holds what `deleteFile` left of it, followed by the texts of
those of the last `LOG_BUFFER_LIMIT` arrived records (the earlier records in
arrival order, then the Debug record of `setLogFileName` when its `Log`
statement emitted one) whose level passes the threshold (level <= reporting
level), in arrival order, followed by the later record. The Debug record is
thus in the file exactly when it was emitted and `LOG_DEBUG` <= reporting
level. -/
theorem buffered_records_flushed_after_configuration (L : Logger) (fs0 : Files)
    (cs : List (CallEnv × Int × String)) (env1 : CallEnv) (name : String) (env2 : CallEnv)
    (level : Int) (baremsg : String) (hname : name ≠ "")
    (hlevel : env2.reportingLevel ≠ L.LOG_UNCENSORED) (hok : ∀ i, env2.writeOk i = true) :
    (configureThenLog L fs0 cs env1 name env2 level baremsg).logBuffer = [] ∧
    fileContent (configureThenLog L fs0 cs env1 name env2 level baremsg).files name =
      fileContent (deleteFile env1.deleteOk fs0 name).1 name ++
        concatTexts
          (((records L cs).drop
              (cs.length +
                (ownRecord L env1 name (min cs.length (LOG_BUFFER_LIMIT + 1))).length -
                LOG_BUFFER_LIMIT) ++
            ownRecord L env1 name (min cs.length (LOG_BUFFER_LIMIT + 1))).filter
            (fun r => decide (r.1 ≤ env2.reportingLevel))) ++
        formatMsg L env2.now level baremsg := by
  have hM := LOG_BUFFER_LIMIT_eq
  obtain ⟨h1, h2, _, h4⟩ := run_buffering L { initialState with files := fs0 } rfl rfl cs
  obtain ⟨g1, g2, _, g4⟩ := setLogFileName_unconfigured L env1 name
    (run L { initialState with files := fs0 } (logCalls cs)) h1
  have hlenR : (records L cs).length = cs.length := by simp [records]
  have hsz : (run L { initialState with files := fs0 } (logCalls cs)).logBuffer.length =
      min cs.length (LOG_BUFFER_LIMIT + 1) := by
    rw [h4, List.length_drop, hlenR]
    omega
  rw [hsz] at g4
  obtain ⟨k1, k2, _, _, _⟩ := log_flush_ok L env2 level baremsg
    (setLogFileName L env1 name (run L { initialState with files := fs0 } (logCalls cs)))
    (by rw [g1]; exact hname) hlevel (fun i _ => hok i)
  rw [g1, g2, h2] at k2
  have hdrop : ∀ (a b : Nat) (tl : List (Int × String)), a = b →
      List.drop a (records L cs) ++ tl = List.drop b (records L cs) ++ tl :=
    fun a b tl e => by rw [e]
  have hdrop0 : ∀ (a b : Nat), a = b →
      List.drop a (records L cs) = List.drop b (records L cs) :=
    fun a b e => by rw [e]
  have hbuf : dropEarliest (setLogFileName L env1 name
        (run L { initialState with files := fs0 } (logCalls cs))).logBuffer =
      (records L cs).drop
          (cs.length + (ownRecord L env1 name (min cs.length (LOG_BUFFER_LIMIT + 1))).length -
            LOG_BUFFER_LIMIT) ++
        ownRecord L env1 name (min cs.length (LOG_BUFFER_LIMIT + 1)) := by
    rw [g4, h4]
    by_cases he : L.emits L.LOG_DEBUG env1.reportingLevel = true
    · have hown : ownRecord L env1 name (min cs.length (LOG_BUFFER_LIMIT + 1)) =
          [record L env1 L.LOG_DEBUG
            (setLogFileNameText name "" (min cs.length (LOG_BUFFER_LIMIT + 1)))] := by
        simp [ownRecord, he]
      rw [if_pos he, hown, dropEarliest_drop, dropEarliest_append_singleton, List.drop_drop,
        List.length_drop, hlenR, List.length_singleton]
      apply hdrop
      split <;> split <;> omega
    · have hown : ownRecord L env1 name (min cs.length (LOG_BUFFER_LIMIT + 1)) = [] := by
        simp [ownRecord, he]
      rw [if_neg he, hown]
      simp only [List.append_nil, List.length_nil]
      rw [dropEarliest_drop, hlenR]
      apply hdrop0
      split <;> omega
  refine ⟨k1, ?_⟩
  rw [configureThenLog, k2, persistedText, writable, hbuf]

/-- Witness of `buffered_records_flushed_after_configuration`: one error logged
before `setLogFileName("openxcom.log")`, then an informational record, at
reporting level `LOG_DEBUG`. -/
theorem buffered_records_flushed_after_configuration_witness :
    (configureThenLog stdLogger (fun _ => none) [(constEnv 4 true, 1, "a")] (constEnv 4 true)
      "openxcom.log" (constEnv 4 true) 3 "c").logBuffer = [] ∧
    fileContent (configureThenLog stdLogger (fun _ => none) [(constEnv 4 true, 1, "a")]
        (constEnv 4 true) "openxcom.log" (constEnv 4 true) 3 "c").files "openxcom.log" =
      fileContent (deleteFile (constEnv 4 true).deleteOk (fun _ => none) "openxcom.log").1
          "openxcom.log" ++
        concatTexts
          (((records stdLogger [(constEnv 4 true, 1, "a")]).drop
              ([(constEnv 4 true, (1 : Int), "a")].length +
                (ownRecord stdLogger (constEnv 4 true) "openxcom.log"
                  (min [(constEnv 4 true, (1 : Int), "a")].length
                    (LOG_BUFFER_LIMIT + 1))).length -
                LOG_BUFFER_LIMIT) ++
            ownRecord stdLogger (constEnv 4 true) "openxcom.log"
              (min [(constEnv 4 true, (1 : Int), "a")].length (LOG_BUFFER_LIMIT + 1))).filter
            (fun r => decide (r.1 ≤ (constEnv 4 true).reportingLevel))) ++
        formatMsg stdLogger (constEnv 4 true).now 3 "c" :=
  buffered_records_flushed_after_configuration stdLogger (fun _ => none)
    [(constEnv 4 true, 1, "a")] (constEnv 4 true) "openxcom.log" (constEnv 4 true) 3 "c"
    (by decide) (by decide) (fun _ => rfl)

/-- Claim C4: with a non-empty `logFileName`, a reporting level other than
`LOG_UNCENSORED` and every `logToFile` call succeeding, `log(level, message)`
leaves the pending buffer empty and the destination file equal to its previous
content, then the buffered records left by the eviction step whose level passes
the threshold (level <= reporting level) in buffer order, then the formatted
current record; no other file changes, and `logToFile` is called once per
record that passes the threshold and once for the current record, so records
below the threshold are dropped unwritten. -/
theorem log_flush_all_ok (L : Logger) (env : CallEnv) (level : Int) (baremsg : String)
    (s : LogState) (hname : s.logFileName ≠ "")
    (hlevel : env.reportingLevel ≠ L.LOG_UNCENSORED)
    (hok : ∀ i, env.writeOk i = true) :
    (log L env level baremsg s).logBuffer = [] ∧
    fileContent (log L env level baremsg s).files s.logFileName =
      fileContent s.files s.logFileName ++
        concatTexts ((dropEarliest s.logBuffer).filter
          (fun r => decide (r.1 ≤ env.reportingLevel))) ++
        formatMsg L env.now level baremsg ∧
    (∀ p, p ≠ s.logFileName → (log L env level baremsg s).files p = s.files p) ∧
    (log L env level baremsg s).logToFileCalls = s.logToFileCalls +
      ((dropEarliest s.logBuffer).filter (fun r => decide (r.1 ≤ env.reportingLevel))).length
        + 1 := by
  obtain ⟨h1, h2, h3, _, h5⟩ := log_flush_ok L env level baremsg s hname hlevel
    (fun i _ => hok i)
  exact ⟨h1, h2, h3, h5⟩

/-- Witness of `log_flush_all_ok`: one buffered record, level `LOG_DEBUG`. -/
theorem log_flush_all_ok_witness :
    (log stdLogger (constEnv 4 true) 3 "hello" oneBufferedState).logBuffer = [] ∧
    fileContent (log stdLogger (constEnv 4 true) 3 "hello" oneBufferedState).files
        oneBufferedState.logFileName =
      fileContent oneBufferedState.files oneBufferedState.logFileName ++
        concatTexts ((dropEarliest oneBufferedState.logBuffer).filter
          (fun r => decide (r.1 ≤ (constEnv 4 true).reportingLevel))) ++
        formatMsg stdLogger (constEnv 4 true).now 3 "hello" ∧
    (∀ p, p ≠ oneBufferedState.logFileName →
      (log stdLogger (constEnv 4 true) 3 "hello" oneBufferedState).files p =
        oneBufferedState.files p) ∧
    (log stdLogger (constEnv 4 true) 3 "hello" oneBufferedState).logToFileCalls =
      oneBufferedState.logToFileCalls +
        ((dropEarliest oneBufferedState.logBuffer).filter
          (fun r => decide (r.1 ≤ (constEnv 4 true).reportingLevel))).length + 1 :=
  log_flush_all_ok stdLogger (constEnv 4 true) 3 "hello" oneBufferedState (by decide)
    (by decide) (fun _ => rfl)

/-- Claim C5 as stated fails: the configured state `fullBufferState` holds
1025 records, all passing the threshold, the oldest being `(1, "oldest\n")`.
A `log` call whose first write fails first evicts that oldest record and then
re-buffers the rest: afterwards the record is not in the pending buffer, and
the file is as it was, so the record is lost. -/
theorem failed_write_at_full_buffer_loses_oldest :
    fullBufferState.logBuffer.length = LOG_BUFFER_LIMIT + 1 ∧
    fullBufferState.logBuffer.head? = some (1, "oldest\n") ∧
    (1 : Int) ≤ (constEnv 4 false).reportingLevel ∧
    (constEnv 4 false).writeOk 0 = false ∧
    fullBufferAfterFailure.files = fullBufferState.files ∧
    fileContent fullBufferAfterFailure.files "openxcom.log" = "" ∧
    fullBufferAfterFailure.logBuffer =
      List.replicate 1024 (1, "x\n") ++
        [(1, "Failed to append to 'openxcom.log': disk full"),
         (1, "[01-01-2020_00-00-00]\t[ERROR]\ta\n")] ∧
    (1, "oldest\n") ∉ fullBufferAfterFailure.logBuffer := by
  have hM := LOG_BUFFER_LIMIT_eq
  have hlen0 : fullBufferState.logBuffer.length = 1025 := by
    show ((1, "oldest\n") :: List.replicate 1024 ((1 : Int), "x\n")).length = 1025
    rw [List.length_cons, List.length_replicate]
  have hd0 : dropEarliest fullBufferState.logBuffer =
      (1, "x\n") :: List.replicate 1023 (1, "x\n") := by
    rw [dropEarliest_of_gt (by omega)]
    rfl
  obtain ⟨hb, hf, _⟩ := log_head_write_fails stdLogger (constEnv 4 false) 1 "a"
    fullBufferState (1, "x\n") (List.replicate 1023 (1, "x\n")) (by decide) (by decide)
    hd0 (by decide) rfl
  have hb' : fullBufferAfterFailure.logBuffer =
      List.replicate 1024 (1, "x\n") ++
        [(1, "Failed to append to 'openxcom.log': disk full"),
         (1, "[01-01-2020_00-00-00]\t[ERROR]\ta\n")] := by
    have h1 : fullBufferAfterFailure.logBuffer = _ := hb
    rw [h1]
    have h2 : (1, "x\n") :: List.replicate 1023 ((1 : Int), "x\n") =
        List.replicate 1024 (1, "x\n") := rfl
    rw [h2]
    have h3 : [failureEntry stdLogger (constEnv 4 false) fullBufferState.logFileName,
          record stdLogger (constEnv 4 false) 1 "a"] =
        [(1, "Failed to append to 'openxcom.log': disk full"),
         (1, "[01-01-2020_00-00-00]\t[ERROR]\ta\n")] := by decide
    rw [h3]
  have hf' : fullBufferAfterFailure.files = fullBufferState.files := hf
  refine ⟨by omega, rfl, by decide, rfl, hf', by rw [hf']; rfl, hb', ?_⟩
  rw [hb']
  intro hmem
  rcases List.mem_append.mp hmem with h | h
  · exact absurd (List.eq_of_mem_replicate h) (by decide)
  · revert h
    decide

/-- Claim C5, amended: with a configured destination, a persisting reporting
level and at most `LOG_BUFFER_LIMIT` buffered records, when the `k`-th write
of a `log` call is the first to fail (a failed write leaves the file as it
was), no buffered record that passes the threshold is lost. The buffer splits
into `done ++ rest` where the `k` records of `done` that pass the threshold
were written: the file is its previous content followed by exactly those, and
the pending buffer is `rest` (beginning with the record whose write failed, in
its original order), then the failure entry when `rest` is not empty, then the
current record as the last element. -/
theorem log_failed_write_rebuffers (L : Logger) (env : CallEnv) (level : Int)
    (baremsg : String) (s : LogState) (k : Nat)
    (hcap : s.logBuffer.length ≤ LOG_BUFFER_LIMIT) (hname : s.logFileName ≠ "")
    (hlevel : env.reportingLevel ≠ L.LOG_UNCENSORED)
    (hk : k ≤ (s.logBuffer.filter (fun r => decide (r.1 ≤ env.reportingLevel))).length)
    (hok : ∀ i, i < k → env.writeOk i = true) (hfail : env.writeOk k = false) :
    ∃ done rest, s.logBuffer = done ++ rest ∧
      (done.filter (fun r => decide (r.1 ≤ env.reportingLevel))).length = k ∧
      (∀ r, rest.head? = some r → r.1 ≤ env.reportingLevel) ∧
      (log L env level baremsg s).logBuffer =
        rest ++ (if rest = [] then []
          else [(L.LOG_ERROR, failureText s.logFileName env.sdlError)]) ++
          [(level, formatMsg L env.now level baremsg)] ∧
      fileContent (log L env level baremsg s).files s.logFileName =
        fileContent s.files s.logFileName ++
          concatTexts (done.filter (fun r => decide (r.1 ≤ env.reportingLevel))) ∧
      (∀ p, p ≠ s.logFileName → (log L env level baremsg s).files p = s.files p) ∧
      (∀ r ∈ s.logBuffer, r.1 ≤ env.reportingLevel →
        r ∈ done.filter (fun r => decide (r.1 ≤ env.reportingLevel)) ∨
        r ∈ (log L env level baremsg s).logBuffer) := by
  have hd : dropEarliest s.logBuffer = s.logBuffer := dropEarliest_of_le hcap
  obtain ⟨pre, post, e, hlen, hhead, hbuf, hfile, hothers, _, _⟩ :=
    log_flush_fail L env level baremsg s k hname hlevel (by rw [hd]; exact hk) hok hfail
  rw [hd] at e
  refine ⟨pre, post, e, hlen, hhead, hbuf, hfile, hothers, ?_⟩
  intro r hr hpass
  rw [e] at hr
  rcases List.mem_append.mp hr with h | h
  · left
    exact List.mem_filter.mpr ⟨h, by simpa using hpass⟩
  · right
    rw [hbuf]
    exact List.mem_append_left _ (List.mem_append_left _ h)

/-- Witness of `log_failed_write_rebuffers`: one buffered record whose write
fails. -/
theorem log_failed_write_rebuffers_witness :
    ∃ done rest, oneBufferedState.logBuffer = done ++ rest ∧
      (done.filter (fun r => decide (r.1 ≤ (constEnv 4 false).reportingLevel))).length = 0 ∧
      (∀ r, rest.head? = some r → r.1 ≤ (constEnv 4 false).reportingLevel) ∧
      (log stdLogger (constEnv 4 false) 3 "hello" oneBufferedState).logBuffer =
        rest ++ (if rest = [] then []
          else [(stdLogger.LOG_ERROR,
            failureText oneBufferedState.logFileName (constEnv 4 false).sdlError)]) ++
          [(3, formatMsg stdLogger (constEnv 4 false).now 3 "hello")] ∧
      fileContent (log stdLogger (constEnv 4 false) 3 "hello" oneBufferedState).files
          oneBufferedState.logFileName =
        fileContent oneBufferedState.files oneBufferedState.logFileName ++
          concatTexts (done.filter
            (fun r => decide (r.1 ≤ (constEnv 4 false).reportingLevel))) ∧
      (∀ p, p ≠ oneBufferedState.logFileName →
        (log stdLogger (constEnv 4 false) 3 "hello" oneBufferedState).files p =
          oneBufferedState.files p) ∧
      (∀ r ∈ oneBufferedState.logBuffer, r.1 ≤ (constEnv 4 false).reportingLevel →
        r ∈ done.filter (fun r => decide (r.1 ≤ (constEnv 4 false).reportingLevel)) ∨
        r ∈ (log stdLogger (constEnv 4 false) 3 "hello" oneBufferedState).logBuffer) :=
  log_failed_write_rebuffers stdLogger (constEnv 4 false) 3 "hello" oneBufferedState 0
    (by decide) (by decide) (by decide) (Nat.zero_le _)
    (fun _ h => absurd h (Nat.not_lt_zero _)) rfl

/-- Claim C6, the code at the failing input: the destination is configured,
one record is written, and then the write of the current record of a `log`
call fails (the buffer being empty, it is the only write of that call). The
pending buffer afterwards holds the current record alone: no `LOG_ERROR` entry
describing the failure was appended. -/
theorem last_write_failure_not_reported :
    (run stdLogger initialState lastWriteFailsCalls).logBuffer =
      [(3, "[01-01-2020_00-00-00]\t[INFO]\thello\n")] ∧
    (run stdLogger initialState lastWriteFailsCalls).logToFileCalls = 3 ∧
    fileContent (run stdLogger initialState lastWriteFailsCalls).files "openxcom.log" =
      "[01-01-2020_00-00-00]\t[DEBUG]\tsetLogFileName(openxcom.log) was ''; 0 in buffer\n" ++
      "[01-01-2020_00-00-00]\t[INFO]\tfirst\n" := by
  decide

/-- Claim C7 as stated fails: the configured state `nearlyFullState` holds 1023
records (at most `LOG_BUFFER_LIMIT`), all passing the threshold. A `log` call
whose first write fails re-buffers them all, oldest first, with the failure
entry and the current record: 1025 records. The next `log` call, all of whose
writes succeed, first evicts the oldest of them, so the file receives every
retained record but the oldest one. -/
theorem retry_after_failure_loses_oldest :
    nearlyFullState.logBuffer.length ≤ LOG_BUFFER_LIMIT ∧
    nearlyFullAfterFailure.logBuffer.head? = some (1, "oldest\n") ∧
    nearlyFullAfterFailure.logBuffer.length = LOG_BUFFER_LIMIT + 1 ∧
    nearlyFullAfterRetry.logBuffer = [] ∧
    fileContent nearlyFullAfterRetry.files "openxcom.log" =
      persistedText 4 nearlyFullAfterFailure.logBuffer.tail ++
        formatMsg stdLogger "01-01-2020_00-00-00" 1 "b" ∧
    fileContent nearlyFullAfterRetry.files "openxcom.log" ≠
      persistedText 4 nearlyFullAfterFailure.logBuffer ++
        formatMsg stdLogger "01-01-2020_00-00-00" 1 "b" := by
  have hM := LOG_BUFFER_LIMIT_eq
  have hlen0 : nearlyFullState.logBuffer.length = 1023 := by
    show ((1, "oldest\n") :: List.replicate 1022 ((1 : Int), "x\n")).length = 1023
    rw [List.length_cons, List.length_replicate]
  have hd0 : dropEarliest nearlyFullState.logBuffer =
      (1, "oldest\n") :: List.replicate 1022 (1, "x\n") := by
    rw [dropEarliest_of_le (by omega)]
    rfl
  obtain ⟨hb1, hf1, hn1⟩ := log_head_write_fails stdLogger (constEnv 4 false) 1 "a"
    nearlyFullState (1, "oldest\n") (List.replicate 1022 (1, "x\n")) (by decide) (by decide)
    hd0 (by decide) rfl
  have hb1' : nearlyFullAfterFailure.logBuffer =
      (1, "oldest\n") :: (List.replicate 1022 (1, "x\n") ++
        [failureEntry stdLogger (constEnv 4 false) nearlyFullState.logFileName,
          record stdLogger (constEnv 4 false) 1 "a"]) := hb1
  have hlen1 : nearlyFullAfterFailure.logBuffer.length = 1025 := by
    rw [hb1', List.length_cons, List.length_append, List.length_replicate]
    rfl
  have hname1 : nearlyFullAfterFailure.logFileName = "openxcom.log" := hn1
  have hfiles1 : fileContent nearlyFullAfterFailure.files "openxcom.log" = "" := by
    have : nearlyFullAfterFailure.files = nearlyFullState.files := hf1
    rw [this]
    rfl
  obtain ⟨k1, k2, _, _, _⟩ := log_flush_ok stdLogger (constEnv 4 true) 1 "b"
    nearlyFullAfterFailure (by rw [hname1]; decide) (by decide) (fun _ _ => rfl)
  rw [hname1, hfiles1, dropEarliest_of_gt (by omega), String.empty_append] at k2
  have k2' : fileContent nearlyFullAfterRetry.files "openxcom.log" =
      persistedText 4 nearlyFullAfterFailure.logBuffer.tail ++
        formatMsg stdLogger "01-01-2020_00-00-00" 1 "b" := k2
  refine ⟨by omega, by rw [hb1']; rfl, by omega, k1, k2', ?_⟩
  rw [k2']
  intro h
  have hcons : persistedText 4 nearlyFullAfterFailure.logBuffer =
      "oldest\n" ++ persistedText 4 nearlyFullAfterFailure.logBuffer.tail := by
    rw [hb1']
    rw [persistedText, persistedText, writable_cons_pos (by decide)]
    rfl
  rw [hcons] at h
  have hl := congrArg String.length h
  simp only [String.length_append] at hl
  have h7 : ("oldest\n" : String).length = 7 := by decide
  omega

/-- Claim C7, amended: with a configured destination, a persisting reporting
level and at most `LOG_BUFFER_LIMIT - 2` buffered records, when the `k`-th
write of one `log` call is the first to fail (leaving the file as it was) and
every write of the next `log` call succeeds, the pending buffer is empty after
the second call and the destination file is its content before the two calls
followed, once each and in arrival order, by the texts of the records that pass
the threshold among: the buffered records, the failure entry (present when the
failed write was that of a buffered record), the record of the first call;
followed by the record of the second call. -/
theorem retry_after_failure_persists_all (L : Logger) (env1 env2 : CallEnv)
    (level1 : Int) (msg1 : String) (level2 : Int) (msg2 : String) (s : LogState) (k : Nat)
    (hcap : s.logBuffer.length + 2 ≤ LOG_BUFFER_LIMIT) (hname : s.logFileName ≠ "")
    (hlevel : env1.reportingLevel ≠ L.LOG_UNCENSORED)
    (hsame : env2.reportingLevel = env1.reportingLevel)
    (hk : k ≤ (s.logBuffer.filter (fun r => decide (r.1 ≤ env1.reportingLevel))).length)
    (hok1 : ∀ i, i < k → env1.writeOk i = true) (hfail : env1.writeOk k = false)
    (hok2 : ∀ i, env2.writeOk i = true) :
    (log L env2 level2 msg2 (log L env1 level1 msg1 s)).logBuffer = [] ∧
    fileContent (log L env2 level2 msg2 (log L env1 level1 msg1 s)).files s.logFileName =
      fileContent s.files s.logFileName ++
        concatTexts
          ((s.logBuffer ++
            (if k < (s.logBuffer.filter (fun r => decide (r.1 ≤ env1.reportingLevel))).length
              then [(L.LOG_ERROR, failureText s.logFileName env1.sdlError)] else []) ++
            [(level1, formatMsg L env1.now level1 msg1)]).filter
            (fun r => decide (r.1 ≤ env1.reportingLevel))) ++
        formatMsg L env2.now level2 msg2 := by
  have hd : dropEarliest s.logBuffer = s.logBuffer := dropEarliest_of_le (by omega)
  have hk' : k ≤ (writable env1.reportingLevel (dropEarliest s.logBuffer)).length := by
    rw [hd]; exact hk
  obtain ⟨pre, post, e, hlen, hhead, hbuf, hfile, _, hn, _⟩ :=
    log_flush_fail L env1 level1 msg1 s k hname hlevel hk' hok1 hfail
  rw [hd] at e
  have hsyn : (if post = [] then [] else [failureEntry L env1 s.logFileName]) =
      (if k < (s.logBuffer.filter (fun r => decide (r.1 ≤ env1.reportingLevel))).length
        then [(L.LOG_ERROR, failureText s.logFileName env1.sdlError)] else []) := by
    have hw : (s.logBuffer.filter (fun r => decide (r.1 ≤ env1.reportingLevel))).length =
        k + (writable env1.reportingLevel post).length := by
      rw [← hlen, e]
      simp [writable]
    cases post with
    | nil =>
      rw [if_pos rfl, if_neg]
      rw [hw]
      simp [writable]
    | cons r post' =>
      have hr := hhead r rfl
      rw [if_neg (List.cons_ne_nil _ _), if_pos]
      · rfl
      · rw [hw, writable_cons_pos hr]
        simp
  rw [hsyn] at hbuf
  have hlen1 : (log L env1 level1 msg1 s).logBuffer.length ≤ LOG_BUFFER_LIMIT := by
    have hpost : post.length ≤ s.logBuffer.length := by
      rw [e]; simp
    rw [hbuf]
    simp only [List.length_append, List.length_singleton]
    split
    · simp only [List.length_singleton]; omega
    · simp only [List.length_nil]; omega
  obtain ⟨k1, k2, _, _, _⟩ := log_flush_ok L env2 level2 msg2 (log L env1 level1 msg1 s)
    (by rw [hn]; exact hname) (by rw [hsame]; exact hlevel) (fun i _ => hok2 i)
  refine ⟨k1, ?_⟩
  rw [hn, hfile, dropEarliest_of_le hlen1, hsame, hbuf] at k2
  rw [k2, String.append_assoc, String.append_assoc, String.append_assoc]
  congr 1
  rw [← String.append_assoc]
  congr 1
  rw [← persistedText_append, ← List.append_assoc, ← List.append_assoc, ← e]
  rfl

/-- Witness of `retry_after_failure_persists_all`: one buffered record whose
write fails in the first call. -/
theorem retry_after_failure_persists_all_witness :
    (log stdLogger (constEnv 4 true) 3 "b"
      (log stdLogger (constEnv 4 false) 3 "a" oneBufferedState)).logBuffer = [] ∧
    fileContent (log stdLogger (constEnv 4 true) 3 "b"
        (log stdLogger (constEnv 4 false) 3 "a" oneBufferedState)).files
        oneBufferedState.logFileName =
      fileContent oneBufferedState.files oneBufferedState.logFileName ++
        concatTexts
          ((oneBufferedState.logBuffer ++
            (if 0 < (oneBufferedState.logBuffer.filter
                (fun r : Int × String => decide (r.1 ≤ (constEnv 4 false).reportingLevel))).length
              then [(stdLogger.LOG_ERROR,
                failureText oneBufferedState.logFileName (constEnv 4 false).sdlError)]
              else []) ++
            [(3, formatMsg stdLogger (constEnv 4 false).now 3 "a")]).filter
            (fun r : Int × String => decide (r.1 ≤ (constEnv 4 false).reportingLevel))) ++
        formatMsg stdLogger (constEnv 4 true).now 3 "b" :=
  retry_after_failure_persists_all stdLogger (constEnv 4 false) (constEnv 4 true) 3 "a" 3 "b"
    oneBufferedState 0 (by decide) (by decide) (by decide) rfl (Nat.zero_le _)
    (fun _ h => absurd h (Nat.not_lt_zero _)) rfl (fun _ => rfl)

/-- Claim C8, the code at the failing input: once the destination is
configured under a sink that fails every write (reporting level `LOG_DEBUG`),
after `n` calls `log(LOG_ERROR, "disk full")` the pending buffer holds more
than `n` records, for every `n`; so no fixed bound holds. -/
theorem failing_sink_buffer_unbounded (n : Nat) :
    n < (run stdLogger initialState (failingSinkCalls n)).logBuffer.length := by
  have hinv : ∀ m,
      (run stdLogger initialState (failingSinkCalls m)).logFileName = "openxcom.log" ∧
      (∀ r ∈ (run stdLogger initialState (failingSinkCalls m)).logBuffer, (4 : Int) ≥ r.1) ∧
      m + 1 ≤ (run stdLogger initialState (failingSinkCalls m)).logBuffer.length := by
    intro m
    induction m with
    | zero => decide
    | succ m ih =>
      obtain ⟨h1, h2, h3⟩ := ih
      have hstep : run stdLogger initialState (failingSinkCalls (m + 1)) =
          log stdLogger (constEnv 4 false) 1 "disk full"
            (run stdLogger initialState (failingSinkCalls m)) := by
        simp only [failingSinkCalls, run, List.replicate_succ', ← List.cons_append,
          List.foldl_append]
        rfl
      rw [hstep]
      obtain ⟨g1, g2, g3⟩ := log_all_fail_grows stdLogger (constEnv 4 false) 1 "disk full"
        (run stdLogger initialState (failingSinkCalls m)) (by rw [h1]; decide) (by decide) rfl
        h2 (by decide) (by decide)
      exact ⟨g1.trans h1, g2, by omega⟩
  exact (hinv n).2.2

/-- Claim C9: when `logFileName` is empty or the reporting level is
`LOG_UNCENSORED`, `log(level, message)` changes no file and calls `logToFile`
not once; the buffer becomes what the eviction step leaves (a suffix of the old
buffer, so the order is kept) followed by the one formatted record. -/
theorem log_buffering_frame (L : Logger) (env : CallEnv) (level : Int) (baremsg : String)
    (s : LogState) (h : s.logFileName = "" ∨ env.reportingLevel = L.LOG_UNCENSORED) :
    (log L env level baremsg s).files = s.files ∧
    (log L env level baremsg s).logToFileCalls = s.logToFileCalls ∧
    (log L env level baremsg s).logFileName = s.logFileName ∧
    (log L env level baremsg s).logBuffer =
      dropEarliest s.logBuffer ++ [(level, formatMsg L env.now level baremsg)] ∧
    List.IsSuffix (dropEarliest s.logBuffer) s.logBuffer := by
  rw [log_buffering L env level baremsg s h]
  exact ⟨rfl, rfl, rfl, rfl, dropEarliest_suffix _⟩

/-- Witness of `log_buffering_frame`: a `log` call in the initial state. -/
theorem log_buffering_frame_witness :
    (log stdLogger (constEnv 4 true) 1 "disk full" initialState).files = initialState.files ∧
    (log stdLogger (constEnv 4 true) 1 "disk full" initialState).logToFileCalls =
      initialState.logToFileCalls ∧
    (log stdLogger (constEnv 4 true) 1 "disk full" initialState).logFileName =
      initialState.logFileName ∧
    (log stdLogger (constEnv 4 true) 1 "disk full" initialState).logBuffer =
      dropEarliest initialState.logBuffer ++
        [(1, formatMsg stdLogger (constEnv 4 true).now 1 "disk full")] ∧
    List.IsSuffix (dropEarliest initialState.logBuffer) initialState.logBuffer :=
  log_buffering_frame stdLogger (constEnv 4 true) 1 "disk full" initialState (Or.inl rfl)

/-- Claim C10: the text of the record that `log(level, message)` handles is
`"[" + now() + "]" + TAB + "[" + Logger::toString(level) + "]" + TAB + message +
newline`: after the call either the record with exactly this text is the last
of the pending buffer, or the buffer is empty and the destination file ends
with this text; and when the reporting level is at least `LOG_DEBUG` this text
is what was added to `stderr`. -/
theorem log_text_format (L : Logger) (env : CallEnv) (level : Int) (baremsg : String)
    (s : LogState) :
    ((log L env level baremsg s).logBuffer.getLast? =
        some (level, "[" ++ env.now ++ "]" ++ "\t" ++ "[" ++ L.toString level ++ "]" ++ "\t" ++
          baremsg ++ "\n") ∨
      ((log L env level baremsg s).logBuffer = [] ∧
        ∃ before, fileContent (log L env level baremsg s).files s.logFileName =
          before ++ ("[" ++ env.now ++ "]" ++ "\t" ++ "[" ++ L.toString level ++ "]" ++ "\t" ++
            baremsg ++ "\n"))) ∧
    (env.reportingLevel ≥ L.LOG_DEBUG →
      (log L env level baremsg s).stderr =
        s.stderr ++ ("[" ++ env.now ++ "]" ++ "\t" ++ "[" ++ L.toString level ++ "]" ++ "\t" ++
          baremsg ++ "\n")) := by
  constructor
  · by_cases hmode : s.logFileName = "" ∨ env.reportingLevel = L.LOG_UNCENSORED
    · left
      rw [log_buffering L env level baremsg s hmode]
      simp [record, formatMsg]
    · by_cases hf : (flushLoop L env s.logFileName (dropEarliest s.logBuffer) 0 s.files).failed
          = true
      · left
        simp [log, if_neg hmode, hf, formatMsg]
      · have hf' : (flushLoop L env s.logFileName (dropEarliest s.logBuffer) 0
            s.files).failed = false := by simpa using hf
        have hb := flushLoop_buffer_of_not_failed L env s.logFileName _ _ _ hf'
        by_cases hw : env.writeOk (flushLoop L env s.logFileName (dropEarliest s.logBuffer) 0
            s.files).writes = true
        · right
          simp only [log, if_neg hmode, hf', hw, logToFile, if_true, Bool.false_eq_true,
            if_false]
          exact ⟨hb, _, by rw [fileContent_appendFile_same]; rfl⟩
        · left
          simp [log, if_neg hmode, hf', hw, logToFile, formatMsg]
  · intro hd
    by_cases hmode : s.logFileName = "" ∨ env.reportingLevel = L.LOG_UNCENSORED
    · rw [log_buffering L env level baremsg s hmode]
      simp [hd, formatMsg]
    · simp only [log, if_neg hmode]
      split
      · simp [hd, formatMsg]
      · split <;> simp [hd, formatMsg]

/-! ## Auxiliary facts about configuration, timestamps and the crash reporter -/

/-- No `log` call changes `logFileName`. -/
theorem log_logFileName (L : Logger) (env : CallEnv) (level : Int) (baremsg : String)
    (s : LogState) : (log L env level baremsg s).logFileName = s.logFileName := by
  unfold log
  simp only []
  split
  · rfl
  · split
    · rfl
    · split <;> rfl

theorem flushLoop_files_other (L : Logger) (env : CallEnv) (name : String) :
    ∀ (buf : List (Int × String)) (k : Nat) (fs : Files) (p : String), p ≠ name →
      (flushLoop L env name buf k fs).files p = fs p := by
  intro buf
  induction buf with
  | nil => intro k fs p _; rfl
  | cons r rest ih =>
    intro k fs p hp
    by_cases hr : env.reportingLevel ≥ r.1
    · by_cases hw : env.writeOk k = true
      · simp only [flushLoop, if_pos hr, logToFile, hw, if_true]
        rw [ih _ _ p hp, appendFile_other _ _ _ _ hp]
      · simp [flushLoop, if_pos hr, logToFile, hw]
    · simp only [flushLoop, if_neg hr]
      exact ih _ _ p hp

theorem logToFile_other (ok : Bool) (fs : Files) (name data p : String) (hp : p ≠ name) :
    (logToFile ok fs name data).1 p = fs p := by
  cases ok
  · rfl
  · simp [logToFile, appendFile_other _ _ _ _ hp]

/-- A `log` call changes no file but the destination. -/
theorem log_files_other (L : Logger) (env : CallEnv) (level : Int) (baremsg : String)
    (s : LogState) (p : String) (hp : p ≠ s.logFileName) :
    (log L env level baremsg s).files p = s.files p := by
  unfold log
  simp only []
  split
  · rfl
  · split
    · exact flushLoop_files_other L env _ _ _ _ p hp
    · split
      · simp only []
        rw [logToFile_other _ _ _ _ _ hp]
        exact flushLoop_files_other L env _ _ _ _ p hp
      · simp only []
        rw [logToFile_other _ _ _ _ _ hp]
        exact flushLoop_files_other L env _ _ _ _ p hp

/-- No `setLogFileName` call leaves another name than the one given. -/
theorem setLogFileName_logFileName (L : Logger) (env : CallEnv) (name : String)
    (s : LogState) : (setLogFileName L env name s).logFileName = name := by
  unfold setLogFileName
  rfl

/-- What `setLogFileName` does in buffering mode. -/
theorem setLogFileName_buffering (L : Logger) (env : CallEnv) (name : String)
    (s : LogState) (h : s.logFileName = "" ∨ env.reportingLevel = L.LOG_UNCENSORED) :
    (setLogFileName L env name s).files = (deleteFile env.deleteOk s.files name).1 ∧
    (setLogFileName L env name s).logToFileCalls = s.logToFileCalls ∧
    (setLogFileName L env name s).logBuffer =
      if L.emits L.LOG_DEBUG env.reportingLevel = true then
        dropEarliest s.logBuffer ++
          [(L.LOG_DEBUG, formatMsg L env.now L.LOG_DEBUG
            (setLogFileNameText name s.logFileName s.logBuffer.length))]
      else s.logBuffer := by
  by_cases he : L.emits L.LOG_DEBUG env.reportingLevel = true
  · have key := log_buffering L env L.LOG_DEBUG
      (setLogFileNameText name s.logFileName s.logBuffer.length)
      { s with files := (deleteFile env.deleteOk s.files name).1 } h
    simp only [setLogFileName, he, if_true]
    rw [key]
    exact ⟨rfl, rfl, rfl⟩
  · simp [setLogFileName, he]

theorem logStatement_events (L : Logger) (envs : Nat → CallEnv) (level : Int) (text : String)
    (w : World) :
    (logStatement L envs level text w).events = w.events ++ [Event.logged level text] := rfl

theorem logStatement_logFileName (L : Logger) (envs : Nat → CallEnv) (level : Int)
    (text : String) (w : World) :
    (logStatement L envs level text w).sink.logFileName = w.sink.logFileName := by
  unfold logStatement
  simp only []
  split
  · exact log_logFileName _ _ _ _ _
  · rfl

theorem logLines_events (L : Logger) (R : Runtime) (envs : Nat → CallEnv) :
    ∀ (lines : List String) (w : World),
      (logLines L R envs lines w).events = w.events ++ lines.map (Event.logged R.LOG_FATAL) := by
  intro lines
  induction lines with
  | nil => intro w; simp [logLines]
  | cons line rest ih =>
    intro w
    have h := ih (logStatement L envs R.LOG_FATAL line w)
    simp only [logLines, List.foldl_cons] at h ⊢
    rw [h, logStatement_events]
    simp

theorem logLines_logFileName (L : Logger) (R : Runtime) (envs : Nat → CallEnv) :
    ∀ (lines : List String) (w : World),
      (logLines L R envs lines w).sink.logFileName = w.sink.logFileName := by
  intro lines
  induction lines with
  | nil => intro w; rfl
  | cons line rest ih =>
    intro w
    have h := ih (logStatement L envs R.LOG_FATAL line w)
    simp only [logLines, List.foldl_cons] at h ⊢
    rw [h, logStatement_logFileName]

/-- The events of `stackTrace`: one `Log(LOG_FATAL)` statement per line. -/
theorem stackTrace_events (L : Logger) (R : Runtime) (envs : Nat → CallEnv) (B : Backend)
    (w : World) :
    (stackTrace L R envs B w).events =
      w.events ++ (stackTraceLines B).map (Event.logged R.LOG_FATAL) := by
  cases B with
  | execinfo C stack => exact logLines_events L R envs _ w
  | dbghelp mingw demangle walk lastError =>
    simp only [stackTrace, stackTraceLines]
    split
    · rw [logStatement_events, logLines_events]
      simp
    · rw [logLines_events]
      simp
  | unavailable => rfl

theorem stackTrace_logFileName (L : Logger) (R : Runtime) (envs : Nat → CallEnv) (B : Backend)
    (w : World) : (stackTrace L R envs B w).sink.logFileName = w.sink.logFileName := by
  cases B with
  | execinfo C stack => exact logLines_logFileName L R envs _ w
  | dbghelp mingw demangle walk lastError =>
    simp only [stackTrace]
    split
    · rw [logStatement_logFileName, logLines_logFileName]
    · rw [logLines_logFileName]
  | unavailable => exact logStatement_logFileName _ _ _ _ _

theorem showError_events (L : Logger) (R : Runtime) (envs : Nat → CallEnv) (error : String)
    (w : World) :
    (showError L R envs error w).events =
      w.events ++ [Event.shown error, Event.logged R.LOG_FATAL error] := by
  simp [showError, logStatement_events]

theorem shownCount_append (a b : List Event) :
    shownCount (a ++ b) = shownCount a + shownCount b := by
  simp [shownCount]

theorem shownCount_logged (R : Runtime) (lines : List String) :
    shownCount (lines.map (Event.logged R.LOG_FATAL)) = 0 := by
  induction lines with
  | nil => rfl
  | cons line rest ih =>
    simp only [List.map_cons, shownCount, List.filter_cons] at ih ⊢
    exact ih

theorem loggedAt_append (level : Int) (a b : List Event) :
    loggedAt level (a ++ b) = loggedAt level a ++ loggedAt level b := by
  simp [loggedAt]

theorem loggedAt_logged (level : Int) (lines : List String) :
    loggedAt level (lines.map (Event.logged level)) = lines := by
  induction lines with
  | nil => rfl
  | cons line rest ih =>
    simp only [loggedAt, List.map_cons, List.filterMap_cons, if_true] at ih ⊢
    rw [ih]

/-- The events of `crashDump` where `_MSC_VER` is not defined. -/
theorem crashDump_events (L : Logger) (R : Runtime) (envs : Nat → CallEnv) (B : Backend)
    (ex : Option Int) (err : String) (w : World) :
    (crashDump L R envs B ex err w).events =
      w.events ++
        (Event.logged R.LOG_FATAL ("A fatal error has occurred: " ++ faultDescription R ex err) ::
          (stackTraceLines B).map (Event.logged R.LOG_FATAL)) ++
        [Event.shown (crashMessage (faultDescription R ex err) w.sink.logFileName),
         Event.logged R.LOG_FATAL
          (crashMessage (faultDescription R ex err) w.sink.logFileName)] := by
  simp only [crashDump, showError_events, stackTrace_events, logStatement_events,
    getLogFileName, stackTrace_logFileName, logStatement_logFileName]
  simp

/-- The text logged by the dump step of `crashDump` under `_MSC_VER`. -/
theorem crashDumpMSVC_events (L : Logger) (R : Runtime) (envs : Nat → CallEnv) (B : Backend)
    (D : DumpEnv) (e : ExceptionPointers) (err : String) (w : World) :
    ∃ w', crashDumpMSVC L R envs B D (some e) err w = some w' ∧
      w'.events =
        w.events ++
          (Event.logged R.LOG_FATAL ("A fatal error has occurred: " ++ faultDescriptionMSVC e) ::
            (stackTraceLines B).map (Event.logged R.LOG_FATAL)) ++
          [Event.dump (dumpName R D.timestamp) D.written,
           Event.logged R.LOG_FATAL
            (if D.written = true then "Crash dump generated at " ++ dumpName R D.timestamp
              else "No crash dump generated: " ++ Nat.repr D.lastError)] ++
          [Event.shown (crashMessage (faultDescriptionMSVC e) w.sink.logFileName),
           Event.logged R.LOG_FATAL
            (crashMessage (faultDescriptionMSVC e) w.sink.logFileName)] := by
  refine ⟨_, rfl, ?_⟩
  cases hw : D.written
  · simp [showError_events, stackTrace_events, logStatement_events,
      getLogFileName, stackTrace_logFileName, logStatement_logFileName]
  · simp [showError_events, stackTrace_events, logStatement_events,
      getLogFileName, stackTrace_logFileName, logStatement_logFileName]

theorem shownCount_cons_logged (level : Int) (text : String) (rest : List Event) :
    shownCount (Event.logged level text :: rest) = shownCount rest := by
  simp [shownCount]

theorem shownCount_cons_dump (path : String) (written : Bool) (rest : List Event) :
    shownCount (Event.dump path written :: rest) = shownCount rest := by
  simp [shownCount]

theorem shownCount_cons_shown (msg : String) (rest : List Event) :
    shownCount (Event.shown msg :: rest) = shownCount rest + 1 := by
  simp [shownCount]

theorem string_append_left_cancel (a b c : String) (h : a ++ b = a ++ c) : b = c := by
  have hd := congrArg String.data h
  simp only [String.data_append] at hd
  exact String.ext (List.append_cancel_left hd)

theorem string_append_right_cancel (a b c : String) (h : a ++ c = b ++ c) : a = b := by
  have hd := congrArg String.data h
  simp only [String.data_append] at hd
  exact String.ext (List.append_cancel_right hd)

theorem pad2_eq_twoDigits : ∀ n, n < 100 → pad2 n = twoDigits n := by
  decide

theorem repr_eq_fourDigits (n : Nat) (h1 : 1000 ≤ n) (h2 : n ≤ 9999) :
    Nat.repr n = fourDigits n := by
  obtain ⟨m, rfl⟩ : ∃ m, n = m + 3 := ⟨n - 3, by omega⟩
  have a1 : (m + 3) / 10 ≠ 0 := by omega
  have a2 : (m + 3) / 10 / 10 ≠ 0 := by omega
  have a3 : (m + 3) / 10 / 10 / 10 ≠ 0 := by omega
  have a4 : (m + 3) / 10 / 10 / 10 / 10 = 0 := by omega
  have b1 : (m + 3) / 10 / 10 / 10 % 10 = (m + 3) / 1000 % 10 := by omega
  have b2 : (m + 3) / 10 / 10 % 10 = (m + 3) / 100 % 10 := by omega
  simp only [Nat.repr, Nat.toDigits, Nat.toDigitsCore, a1, a2, a3, a4, if_true, if_false,
    fourDigits, List.asString, b1, b2]

/-- The function `crashDump` is its first statement followed by `stackTrace`
and `showError`. -/
theorem crashDump_eq_started (L : Logger) (R : Runtime) (envs : Nat → CallEnv) (B : Backend)
    (f : Fault) (w : World) :
    crashDump L R envs B f.ex f.err w =
      showError L R envs
        (crashMessage (faultDescription R f.ex f.err)
          (getLogFileName (stackTrace L R envs B (crashDumpStarted L R envs f w)).sink))
        (stackTrace L R envs B (crashDumpStarted L R envs f w)) :=
  rfl

/-! ## The claims about configuration, crash reporting and timestamps -/

/-- Claim C11 as stated fails: a log of an earlier run is on disk at
`openxcom.log` and the removal fails (`deleteFile` returns false, which
`setLogFileName` does not look at). After `setLogFileName("openxcom.log")`
the accessor returns the name, but the file still holds its prior content,
and the next `log` call appends to it. -/
theorem stale_log_survives_failed_delete :
    getLogFileName (setLogFileName stdLogger deleteFailsEnv "openxcom.log" staleFileState) =
      "openxcom.log" ∧
    (setLogFileName stdLogger deleteFailsEnv "openxcom.log" staleFileState).files
      "openxcom.log" = some "stale\n" ∧
    fileContent (log stdLogger (constEnv 4 true) 3 "c"
        (setLogFileName stdLogger deleteFailsEnv "openxcom.log" staleFileState)).files
        "openxcom.log" =
      "stale\n" ++
      "[01-01-2020_00-00-00]\t[DEBUG]\tsetLogFileName(openxcom.log) was ''; 0 in buffer\n" ++
      "[01-01-2020_00-00-00]\t[INFO]\tc\n" := by
  decide

/-- Claim C11, amended: before any configuration `getLogFileName()` returns the
empty string, and after `setLogFileName(name)` it returns `name`, in every
state. When `deleteFile` succeeds, nothing of the prior content of the file at
`name` remains: the call ends in the very state it would have ended in had
there been no file at `name`, and there is no file at `name` afterwards unless
`name` was already the configured destination. -/
theorem setLogFileName_sets_name_and_removes_file (L : Logger) (env : CallEnv)
    (name : String) (s : LogState) (hdel : env.deleteOk = true) :
    getLogFileName initialState = "" ∧
    getLogFileName (setLogFileName L env name s) = name ∧
    setLogFileName L env name s =
      setLogFileName L env name
        { s with files := fun p => if p = name then none else s.files p } ∧
    (s.logFileName ≠ name → (setLogFileName L env name s).files name = none) := by
  refine ⟨rfl, setLogFileName_logFileName L env name s, ?_, ?_⟩
  · have hfiles : (deleteFile true (fun p => if p = name then none else s.files p) name).1 =
        (deleteFile true s.files name).1 := by
      funext p
      simp only [deleteFile, if_true]
      split <;> simp_all
    simp only [setLogFileName, hdel, hfiles]
  · intro hne
    have hfiles : (deleteFile true s.files name).1 name = none := by
      simp [deleteFile]
    by_cases he : L.emits L.LOG_DEBUG env.reportingLevel = true
    · simp only [setLogFileName, he, if_true, hdel]
      have key := log_files_other L env L.LOG_DEBUG
        (setLogFileNameText name s.logFileName s.logBuffer.length)
        { s with files := (deleteFile true s.files name).1 } name (fun h => hne h.symm)
      rw [key]
      exact hfiles
    · simp only [setLogFileName, he, hdel]
      exact hfiles

/-- Witness of `setLogFileName_sets_name_and_removes_file`: the stale log of
`staleFileState` is removed. -/
theorem setLogFileName_sets_name_and_removes_file_witness :
    getLogFileName initialState = "" ∧
    getLogFileName (setLogFileName stdLogger (constEnv 4 true) "openxcom.log" staleFileState) =
      "openxcom.log" ∧
    setLogFileName stdLogger (constEnv 4 true) "openxcom.log" staleFileState =
      setLogFileName stdLogger (constEnv 4 true) "openxcom.log"
        { staleFileState with
          files := fun p => if p = "openxcom.log" then none else staleFileState.files p } ∧
    (staleFileState.logFileName ≠ "openxcom.log" →
      (setLogFileName stdLogger (constEnv 4 true) "openxcom.log" staleFileState).files
        "openxcom.log" = none) :=
  setLogFileName_sets_name_and_removes_file stdLogger (constEnv 4 true) "openxcom.log"
    staleFileState rfl

set_option maxRecDepth 8000 in
/-- Claim C12 as stated fails: a destination is configured and a failed write
has left one record in the pending buffer (`lastWriteFailsCalls`), the
reporting level being `LOG_DEBUG`. `setLogFileName("new.log")` then logs its
Debug record through `log` while the old name is still in place, and that call
flushes: the pending record and the Debug record are written to the old
destination by two more `logToFile` calls, and the buffer is empty after the
call. -/
theorem setLogFileName_flushes_to_old_destination :
    (run stdLogger initialState lastWriteFailsCalls).logBuffer =
      [(3, "[01-01-2020_00-00-00]\t[INFO]\thello\n")] ∧
    (run stdLogger initialState lastWriteFailsCalls).logToFileCalls = 3 ∧
    (run stdLogger initialState reconfigureCalls).logBuffer = [] ∧
    (run stdLogger initialState reconfigureCalls).logToFileCalls = 5 ∧
    fileContent (run stdLogger initialState reconfigureCalls).files "openxcom.log" =
      fileContent (run stdLogger initialState lastWriteFailsCalls).files "openxcom.log" ++
      "[01-01-2020_00-00-00]\t[INFO]\thello\n" ++
      "[01-01-2020_00-00-00]\t[DEBUG]\tsetLogFileName(new.log) was 'openxcom.log'; 1 in buffer\n" := by
  decide

/-- Claim C12, amended: while no destination is configured or the reporting
level is `LOG_UNCENSORED`, and the buffer holds at most `LOG_BUFFER_LIMIT`
records, `setLogFileName(name)` writes no record to any file (the files are
what `deleteFile` left, `logToFile` is not called) and removes nothing from the
pending buffer: it only appends its own Debug record, when its `Log` statement
emits one. The buffered records are written by the next `log` call: made with
a non-empty `name`, a persisting level and every write succeeding, it empties
the buffer and appends to the file at `name` the buffered records that pass
the threshold and its own record. -/
theorem setLogFileName_does_not_flush_while_buffering (L : Logger) (env : CallEnv)
    (name : String) (s : LogState)
    (h : s.logFileName = "" ∨ env.reportingLevel = L.LOG_UNCENSORED)
    (hcap : s.logBuffer.length ≤ LOG_BUFFER_LIMIT) :
    (setLogFileName L env name s).files = (deleteFile env.deleteOk s.files name).1 ∧
    (∀ p, p ≠ name → (setLogFileName L env name s).files p = s.files p) ∧
    (setLogFileName L env name s).logToFileCalls = s.logToFileCalls ∧
    (setLogFileName L env name s).logBuffer =
      s.logBuffer ++
        (if L.emits L.LOG_DEBUG env.reportingLevel = true then
          [(L.LOG_DEBUG, formatMsg L env.now L.LOG_DEBUG
            (setLogFileNameText name s.logFileName s.logBuffer.length))]
        else []) ∧
    (∀ (env2 : CallEnv) (level : Int) (baremsg : String), name ≠ "" →
      env2.reportingLevel ≠ L.LOG_UNCENSORED → (∀ i, env2.writeOk i = true) →
      (log L env2 level baremsg (setLogFileName L env name s)).logBuffer = [] ∧
      fileContent (log L env2 level baremsg (setLogFileName L env name s)).files name =
        fileContent (deleteFile env.deleteOk s.files name).1 name ++
          concatTexts ((dropEarliest (setLogFileName L env name s).logBuffer).filter
            (fun r => decide (r.1 ≤ env2.reportingLevel))) ++
          formatMsg L env2.now level baremsg) := by
  obtain ⟨h1, h2, h3⟩ := setLogFileName_buffering L env name s h
  refine ⟨h1, ?_, h2, ?_, ?_⟩
  · intro p hp
    rw [h1]
    cases env.deleteOk <;> simp [deleteFile, hp]
  · rw [h3, dropEarliest_of_le hcap]
    split <;> simp
  · intro env2 level baremsg hname hlevel hok
    obtain ⟨k1, k2, _, _, _⟩ := log_flush_ok L env2 level baremsg (setLogFileName L env name s)
      (by rw [setLogFileName_logFileName]; exact hname) hlevel (fun i _ => hok i)
    rw [setLogFileName_logFileName, h1] at k2
    exact ⟨k1, k2⟩

/-- Witness of `setLogFileName_does_not_flush_while_buffering`: the first
configuration, made in the initial state. -/
theorem setLogFileName_does_not_flush_while_buffering_witness :
    (setLogFileName stdLogger (constEnv 4 true) "openxcom.log" initialState).files =
      (deleteFile (constEnv 4 true).deleteOk initialState.files "openxcom.log").1 ∧
    (∀ p, p ≠ "openxcom.log" →
      (setLogFileName stdLogger (constEnv 4 true) "openxcom.log" initialState).files p =
        initialState.files p) ∧
    (setLogFileName stdLogger (constEnv 4 true) "openxcom.log" initialState).logToFileCalls =
      initialState.logToFileCalls ∧
    (setLogFileName stdLogger (constEnv 4 true) "openxcom.log" initialState).logBuffer =
      initialState.logBuffer ++
        (if stdLogger.emits stdLogger.LOG_DEBUG (constEnv 4 true).reportingLevel = true then
          [(stdLogger.LOG_DEBUG, formatMsg stdLogger (constEnv 4 true).now stdLogger.LOG_DEBUG
            (setLogFileNameText "openxcom.log" initialState.logFileName
              initialState.logBuffer.length))]
        else []) ∧
    (∀ (env2 : CallEnv) (level : Int) (baremsg : String), "openxcom.log" ≠ "" →
      env2.reportingLevel ≠ stdLogger.LOG_UNCENSORED → (∀ i, env2.writeOk i = true) →
      (log stdLogger env2 level baremsg
        (setLogFileName stdLogger (constEnv 4 true) "openxcom.log" initialState)).logBuffer =
          [] ∧
      fileContent (log stdLogger env2 level baremsg
          (setLogFileName stdLogger (constEnv 4 true) "openxcom.log" initialState)).files
          "openxcom.log" =
        fileContent (deleteFile (constEnv 4 true).deleteOk initialState.files
            "openxcom.log").1 "openxcom.log" ++
          concatTexts ((dropEarliest
            (setLogFileName stdLogger (constEnv 4 true) "openxcom.log"
              initialState).logBuffer).filter
            (fun r : Int × String => decide (r.1 ≤ env2.reportingLevel))) ++
          formatMsg stdLogger env2.now level baremsg) :=
  setLogFileName_does_not_flush_while_buffering stdLogger (constEnv 4 true) "openxcom.log"
    initialState (Or.inl rfl) (by decide)

/-- Claim C13: the one-line description that `crashDump` logs after
`"A fatal error has occurred: "`. Where `_MSC_VER` is not defined a null `ex`
gives the message `err` unchanged, the signal `SIGSEGV` gives
`"Segmentation fault."` and any other signal number `n` gives `"signal "`
followed by `n` in decimal; under `_MSC_VER` an access violation gives
`"Memory access violation."`, a C++ exception gives its `what()` message and
any other exception code `c` gives `"code 0x"` followed by `c` in hexadecimal. -/
theorem crashDump_fault_description (L : Logger) (R : Runtime) (envs : Nat → CallEnv)
    (B : Backend) (D : DumpEnv) (err what : String) (n : Int) (c : Nat) (w : World)
    (hn : n ≠ R.SIGSEGV) (hc : c ≠ EXCEPTION_CODE_CXX) (hc' : c ≠ EXCEPTION_ACCESS_VIOLATION) :
    loggedAt R.LOG_FATAL ((crashDump L R envs B none err w).events.drop w.events.length) =
      ("A fatal error has occurred: " ++ err) :: stackTraceLines B ++
        [crashMessage err w.sink.logFileName] ∧
    loggedAt R.LOG_FATAL ((crashDump L R envs B (some R.SIGSEGV) err w).events.drop
        w.events.length) =
      "A fatal error has occurred: Segmentation fault." :: stackTraceLines B ++
        [crashMessage "Segmentation fault." w.sink.logFileName] ∧
    loggedAt R.LOG_FATAL ((crashDump L R envs B (some n) err w).events.drop w.events.length) =
      ("A fatal error has occurred: " ++ ("signal " ++ decimal n)) :: stackTraceLines B ++
        [crashMessage ("signal " ++ decimal n) w.sink.logFileName] ∧
    faultDescriptionMSVC { ExceptionCode := EXCEPTION_ACCESS_VIOLATION, what := what } =
      "Memory access violation." ∧
    faultDescriptionMSVC { ExceptionCode := EXCEPTION_CODE_CXX, what := what } = what ∧
    faultDescriptionMSVC { ExceptionCode := c, what := what } =
      "code 0x" ++ String.mk (Nat.toDigits 16 c) ∧
    ∃ w', crashDumpMSVC L R envs B D (some { ExceptionCode := c, what := what }) err w =
        some w' ∧
      (loggedAt R.LOG_FATAL (w'.events.drop w.events.length)).head? =
        some ("A fatal error has occurred: " ++ ("code 0x" ++ String.mk (Nat.toDigits 16 c))) := by
  have hdrop : ∀ (a b : List Event), (a ++ b).drop a.length = b := by
    intro a b
    simp
  have hlog : ∀ (d : String),
      loggedAt R.LOG_FATAL
        ((Event.logged R.LOG_FATAL ("A fatal error has occurred: " ++ d) ::
          (stackTraceLines B).map (Event.logged R.LOG_FATAL)) ++
        [Event.shown (crashMessage d w.sink.logFileName),
         Event.logged R.LOG_FATAL (crashMessage d w.sink.logFileName)]) =
      ("A fatal error has occurred: " ++ d) :: stackTraceLines B ++
        [crashMessage d w.sink.logFileName] := by
    intro d
    rw [loggedAt_append, ← List.map_cons, loggedAt_logged]
    simp [loggedAt]
  have hsig : faultDescription R (some n) err = "signal " ++ decimal n := by
    simp [faultDescription, hn]
  have hsegv : faultDescription R (some R.SIGSEGV) err = "Segmentation fault." := by
    simp [faultDescription]
  have hcode : faultDescriptionMSVC { ExceptionCode := c, what := what } =
      "code 0x" ++ String.mk (Nat.toDigits 16 c) := by
    simp [faultDescriptionMSVC, hc, hc', hex]
  have hav : faultDescriptionMSVC { ExceptionCode := EXCEPTION_ACCESS_VIOLATION, what := what } =
      "Memory access violation." := by
    have hne : EXCEPTION_ACCESS_VIOLATION ≠ EXCEPTION_CODE_CXX := by decide
    rw [faultDescriptionMSVC, if_neg hne, if_pos rfl]
  refine ⟨?_, ?_, ?_, hav, by simp [faultDescriptionMSVC], hcode, ?_⟩
  · rw [crashDump_events, List.append_assoc, hdrop]
    exact hlog err
  · rw [crashDump_events, List.append_assoc, hdrop, hsegv]
    exact hlog _
  · rw [crashDump_events, List.append_assoc, hdrop, hsig]
    exact hlog _
  · obtain ⟨w', h1, h2⟩ := crashDumpMSVC_events L R envs B D
      { ExceptionCode := c, what := what } err w
    refine ⟨w', h1, ?_⟩
    rw [h2, List.append_assoc, List.append_assoc, hdrop, hcode]
    simp [loggedAt]

/-- Witness of `crashDump_fault_description`: the signal 8 and the exception
code `0xC0000094`. -/
theorem crashDump_fault_description_witness :
    loggedAt stdRuntime.LOG_FATAL
        ((crashDump stdLogger stdRuntime (fun _ => constEnv 4 true) Backend.unavailable none
          "bad alloc" initialWorld).events.drop initialWorld.events.length) =
      ("A fatal error has occurred: " ++ "bad alloc") :: stackTraceLines Backend.unavailable ++
        [crashMessage "bad alloc" initialWorld.sink.logFileName] ∧
    loggedAt stdRuntime.LOG_FATAL
        ((crashDump stdLogger stdRuntime (fun _ => constEnv 4 true) Backend.unavailable
          (some stdRuntime.SIGSEGV) "bad alloc" initialWorld).events.drop
            initialWorld.events.length) =
      "A fatal error has occurred: Segmentation fault." ::
        stackTraceLines Backend.unavailable ++
        [crashMessage "Segmentation fault." initialWorld.sink.logFileName] ∧
    loggedAt stdRuntime.LOG_FATAL
        ((crashDump stdLogger stdRuntime (fun _ => constEnv 4 true) Backend.unavailable
          (some 8) "bad alloc" initialWorld).events.drop initialWorld.events.length) =
      ("A fatal error has occurred: " ++ ("signal " ++ decimal 8)) ::
        stackTraceLines Backend.unavailable ++
        [crashMessage ("signal " ++ decimal 8) initialWorld.sink.logFileName] ∧
    faultDescriptionMSVC { ExceptionCode := EXCEPTION_ACCESS_VIOLATION, what := "bad alloc" } =
      "Memory access violation." ∧
    faultDescriptionMSVC { ExceptionCode := EXCEPTION_CODE_CXX, what := "bad alloc" } =
      "bad alloc" ∧
    faultDescriptionMSVC { ExceptionCode := 0xC0000094, what := "bad alloc" } =
      "code 0x" ++ String.mk (Nat.toDigits 16 0xC0000094) ∧
    ∃ w', crashDumpMSVC stdLogger stdRuntime (fun _ => constEnv 4 true) Backend.unavailable
        (dumpAt "01-01-2020_00-00-00")
        (some { ExceptionCode := 0xC0000094, what := "bad alloc" }) "bad alloc" initialWorld =
        some w' ∧
      (loggedAt stdRuntime.LOG_FATAL (w'.events.drop initialWorld.events.length)).head? =
        some ("A fatal error has occurred: " ++
          ("code 0x" ++ String.mk (Nat.toDigits 16 0xC0000094))) :=
  crashDump_fault_description stdLogger stdRuntime (fun _ => constEnv 4 true)
    Backend.unavailable (dumpAt "01-01-2020_00-00-00") "bad alloc" "bad alloc" 8 0xC0000094
    initialWorld (by decide) (by decide) (by decide)

/-- Claim C14: for every fault, `crashDump` calls `showError` exactly once and
as its last step (what follows the presentation is the `Log` statement inside
`showError`), with the message `"OpenXcom has crashed: "` + fault description
+ newline + `"Log file: "` + `getLogFileName()` + newline + the fixed guidance
lines. This holds where `_MSC_VER` is not defined for every `ex` and `err`,
and under `_MSC_VER` for every exception and every outcome of the dump step. -/
theorem crashDump_shows_error_once_last (L : Logger) (R : Runtime) (envs : Nat → CallEnv)
    (B : Backend) (D : DumpEnv) (ex : Option Int) (e : ExceptionPointers) (err : String)
    (w : World) :
    (∃ before,
      (crashDump L R envs B ex err w).events =
        w.events ++ before ++
          [Event.shown
            ("OpenXcom has crashed: " ++ faultDescription R ex err ++ "\n" ++
             "Log file: " ++ getLogFileName w.sink ++ "\n" ++
             "If this error was unexpected, please report it on OpenXcom forum or discord." ++
             "\n" ++ "The following can help us solve the problem:" ++ "\n" ++
             "1. a saved game from just before the crash (helps 98%)" ++ "\n" ++
             "2. a detailed description how to reproduce the crash (helps 80%)" ++ "\n" ++
             "3. a log file (helps 10%)" ++ "\n" ++
             "4. a screenshot of this error message (helps 5%)"),
           Event.logged R.LOG_FATAL (crashMessage (faultDescription R ex err)
             (getLogFileName w.sink))] ∧
      shownCount before = 0) ∧
    shownCount (crashDump L R envs B ex err w).events = shownCount w.events + 1 ∧
    (∃ w' before,
      crashDumpMSVC L R envs B D (some e) err w = some w' ∧
      w'.events =
        w.events ++ before ++
          [Event.shown
            ("OpenXcom has crashed: " ++ faultDescriptionMSVC e ++ "\n" ++
             "Log file: " ++ getLogFileName w.sink ++ "\n" ++
             "If this error was unexpected, please report it on OpenXcom forum or discord." ++
             "\n" ++ "The following can help us solve the problem:" ++ "\n" ++
             "1. a saved game from just before the crash (helps 98%)" ++ "\n" ++
             "2. a detailed description how to reproduce the crash (helps 80%)" ++ "\n" ++
             "3. a log file (helps 10%)" ++ "\n" ++
             "4. a screenshot of this error message (helps 5%)"),
           Event.logged R.LOG_FATAL (crashMessage (faultDescriptionMSVC e)
             (getLogFileName w.sink))] ∧
      shownCount before = 0 ∧
      shownCount w'.events = shownCount w.events + 1) := by
  have hlines : shownCount
      (Event.logged R.LOG_FATAL ("A fatal error has occurred: " ++ faultDescription R ex err) ::
        (stackTraceLines B).map (Event.logged R.LOG_FATAL)) = 0 := by
    rw [shownCount_cons_logged, shownCount_logged]
  have hlines' : shownCount
      (Event.logged R.LOG_FATAL ("A fatal error has occurred: " ++ faultDescriptionMSVC e) ::
        (stackTraceLines B).map (Event.logged R.LOG_FATAL)) = 0 := by
    rw [shownCount_cons_logged, shownCount_logged]
  have hlast : ∀ msg, shownCount [Event.shown msg, Event.logged R.LOG_FATAL msg] = 1 := by
    intro msg
    rfl
  refine ⟨⟨_, crashDump_events L R envs B ex err w, hlines⟩, ?_, ?_⟩
  · rw [crashDump_events, shownCount_append, shownCount_append, hlines, hlast]
  · obtain ⟨w', h1, h2⟩ := crashDumpMSVC_events L R envs B D e err w
    have hmid : ∀ (p t : String) (b : Bool),
        shownCount [Event.dump p b, Event.logged R.LOG_FATAL t] = 0 := by
      intro p t b
      rfl
    refine ⟨w',
      (Event.logged R.LOG_FATAL ("A fatal error has occurred: " ++ faultDescriptionMSVC e) ::
        (stackTraceLines B).map (Event.logged R.LOG_FATAL)) ++
      [Event.dump (dumpName R D.timestamp) D.written,
       Event.logged R.LOG_FATAL
        (if D.written = true then "Crash dump generated at " ++ dumpName R D.timestamp
          else "No crash dump generated: " ++ Nat.repr D.lastError)], h1, ?_, ?_, ?_⟩
    · rw [h2, List.append_assoc w.events]
      rfl
    · rw [shownCount_append, hlines', hmid]
    · rw [h2, shownCount_append, shownCount_append, shownCount_append, hlines', hmid, hlast]

/-- Claim C15 as stated fails: with `backtrace` and `dladdr`, a call stack of
depth 33 at the point of capture gives 32 frame lines, not 33: `backtrace`
fills the 32 entries of `frames` and the outermost frame is not logged. -/
theorem stackTrace_truncates_at_32_frames :
    (List.range' 0x401000 33).length = 33 ∧
    (loggedAt stdRuntime.LOG_FATAL
      (stackTrace stdLogger stdRuntime (fun _ => constEnv 4 true)
        (Backend.execinfo plainLibc (List.range' 0x401000 33)) initialWorld).events).length =
      32 ∧
    frameLine plainLibc 0x401020 ∉
      loggedAt stdRuntime.LOG_FATAL
        (stackTrace stdLogger stdRuntime (fun _ => constEnv 4 true)
          (Backend.execinfo plainLibc (List.range' 0x401000 33)) initialWorld).events := by
  have hev : loggedAt stdRuntime.LOG_FATAL
      (stackTrace stdLogger stdRuntime (fun _ => constEnv 4 true)
        (Backend.execinfo plainLibc (List.range' 0x401000 33)) initialWorld).events =
      (List.range' 0x401000 32).map (frameLine plainLibc) := by
    rw [stackTrace_events, loggedAt_append, loggedAt_logged]
    simp only [stackTraceLines, backtrace, MAX_FRAMES]
    rfl
  rw [hev]
  refine ⟨by simp, by simp, ?_⟩
  decide

/-- Claim C15, amended: `stackTrace` executes one `Log(LOG_FATAL)` statement
per captured frame and nothing else, in capture order from innermost to
outermost. With `backtrace` the captured frames are the innermost
`min(N, 32)` of a call stack of depth `N`; with `StackWalk64` they are the
frames walked, and one further line that is no frame line follows when
`GetLastError()` is not zero after the walk. -/
theorem stackTrace_logs_captured_frames_in_order (L : Logger) (R : Runtime)
    (envs : Nat → CallEnv) (C : Libc) (stack : List Nat) (mingw : Bool)
    (demangle : String → Option String) (walk : List WalkedFrame) (lastError : Nat)
    (w : World) :
    (stackTrace L R envs (Backend.execinfo C stack) w).events =
      w.events ++ ((stack.take 32).map (frameLine C)).map (Event.logged R.LOG_FATAL) ∧
    ((stack.take 32).map (frameLine C)).length = min stack.length 32 ∧
    (stackTrace L R envs (Backend.dbghelp mingw demangle walk lastError) w).events =
      w.events ++ (walk.map (walkedLine mingw demangle)).map (Event.logged R.LOG_FATAL) ++
        (if lastError = 0 then [] else [Event.logged R.LOG_FATAL noStackTrace]) ∧
    (walk.map (walkedLine mingw demangle)).length = walk.length := by
  refine ⟨?_, ?_, ?_, by simp⟩
  · rw [stackTrace_events]
    rfl
  · rw [List.length_map, List.length_take, Nat.min_comm]
  · rw [stackTrace_events]
    simp only [stackTraceLines]
    by_cases h : lastError = 0
    · simp [h]
    · simp [h]

/-- Claim C16, the code at the failing input: on the `StackWalk64` branch two
frames are walked for which `SymFromAddr` fails. Each gets its own line and
the walk goes on, but the line is `"??"` whatever the address of the frame:
the address is not logged. On the `backtrace` branch the same two addresses,
unresolved by `dladdr`, are logged as `"? ? [0x401000]"` and
`"? ? [0x401064]"`. -/
theorem unresolved_walked_frame_logs_no_address :
    loggedAt stdRuntime.LOG_FATAL
      (stackTrace stdLogger stdRuntime (fun _ => constEnv 4 true)
        (Backend.dbghelp false (fun _ => none) unresolvedWalk 0) initialWorld).events =
      ["??", "??"] ∧
    (∀ (mingw : Bool) (demangle : String → Option String) (pc : Nat),
      walkedLine mingw demangle { pc := pc, symbol := none } = "??") ∧
    loggedAt stdRuntime.LOG_FATAL
      (stackTrace stdLogger stdRuntime (fun _ => constEnv 4 true)
        (Backend.execinfo plainLibc [0x401000, 0x401064]) initialWorld).events =
      ["? ? [0x401000]", "? ? [0x401064]"] := by
  refine ⟨by decide, fun _ _ _ => rfl, by decide⟩

/-- Claim C17 as stated fails: two crashes are reported one after the other in
the same process within the same second, so `now()` returns the same
timestamp for both (an access violation, then a division by zero). Both dump
files get the same name, and the second `CreateFileA` call, made with
`CREATE_ALWAYS`, replaces the first dump. -/
theorem same_second_crashes_share_dump_name :
    (twoCrashes "01-01-2020_00-00-00" "01-01-2020_00-00-00"
        { ExceptionCode := 0xC0000005, what := "" }
        { ExceptionCode := 0xC0000094, what := "" }).map (fun w => dumpPaths w.events) =
      some ["C:/Users/x/Documents/OpenXcom/01-01-2020_00-00-00.dmp",
            "C:/Users/x/Documents/OpenXcom/01-01-2020_00-00-00.dmp"] := by
  decide

/-- Claim C17, amended: the dump file that `crashDump` creates is named
`Options::getUserFolder() + now() + ".dmp"`, a function of the user folder and
of the timestamp alone, and two crashes with the same user folder get distinct
dump names exactly when `now()` returns different timestamps for them. -/
theorem dump_name_from_folder_and_timestamp (L : Logger) (R : Runtime)
    (envs : Nat → CallEnv) (B : Backend) (D : DumpEnv) (e : ExceptionPointers) (err : String)
    (w : World) (t1 t2 : String) :
    (∃ w', crashDumpMSVC L R envs B D (some e) err w = some w' ∧
      dumpPaths w'.events = dumpPaths w.events ++ [R.userFolder ++ D.timestamp ++ ".dmp"]) ∧
    (dumpName R t1 = dumpName R t2 ↔ t1 = t2) := by
  constructor
  · obtain ⟨w', h1, h2⟩ := crashDumpMSVC_events L R envs B D e err w
    refine ⟨w', h1, ?_⟩
    have hlines : ∀ lines : List String,
        dumpPaths (lines.map (Event.logged R.LOG_FATAL)) = [] := by
      intro lines
      induction lines with
      | nil => rfl
      | cons line rest ih =>
        simp only [dumpPaths, List.map_cons, List.filterMap_cons] at ih ⊢
        exact ih
    have happ : ∀ a b : List Event, dumpPaths (a ++ b) = dumpPaths a ++ dumpPaths b := by
      intro a b
      simp [dumpPaths]
    rw [h2, happ, happ, happ, ← List.map_cons, hlines]
    simp [dumpPaths, dumpName]
  · constructor
    · intro h
      unfold dumpName at h
      have h' := string_append_right_cancel _ _ _ h
      exact string_append_left_cancel _ _ _ h'
    · intro h
      rw [h]

/-- Claim C18 as stated fails: `now()` puts the day first, not the year. For
1 February 2020 it returns `01-02-2020_00-00-00` and for 2 January 2020
`02-01-2020_00-00-00`: the earlier instant has the greater string in the
lexicographic order of the characters. Under `_WIN32` the paths on which
`GetDateFormatA` or `GetTimeFormatA` fails return `00-00-0000` and `00-00-00`,
strings of 10 and 8 characters. -/
theorem now_is_day_first_and_not_ordered :
    now feb1 = some "01-02-2020_00-00-00" ∧
    now jan2 = some "02-01-2020_00-00-00" ∧
    jan2.before feb1 ∧
    ("01-02-2020_00-00-00" : String).data < ("02-01-2020_00-00-00" : String).data ∧
    nowWin32 none (some "00-00-00") = "00-00-0000" ∧
    (nowWin32 none (some "00-00-00")).length = 10 ∧
    nowWin32 (some "01-02-2020") none = "00-00-00" ∧
    (nowWin32 (some "01-02-2020") none).length = 8 := by
  refine ⟨by decide, by decide, by unfold Tm.before; decide, by decide, rfl, by decide, rfl,
    by decide⟩

/-- Claim C18, amended: for every broken-down local time whose fields have at
most two digits and whose year has four digits, `now()` (the `strftime` path)
returns the 19-character timestamp `DD-MM-YYYY_HH-MM-SS`: day first, then the
month, then the year, every field zero-padded to its width. Under `_WIN32` it
returns the date text, an underscore and the time text when both format calls
succeed. -/
theorem now_format (tm : Tm) (date time : String)
    (hday : tm.tm_mday < 100) (hmon : tm.tm_mon + 1 < 100)
    (hyear : 1000 ≤ tm.tm_year + 1900 ∧ tm.tm_year + 1900 ≤ 9999)
    (hhour : tm.tm_hour < 100) (hmin : tm.tm_min < 100) (hsec : tm.tm_sec < 100) :
    now tm =
      some (twoDigits tm.tm_mday ++ "-" ++ twoDigits (tm.tm_mon + 1) ++ "-" ++
        fourDigits (tm.tm_year + 1900).toNat ++ "_" ++
        twoDigits tm.tm_hour ++ "-" ++ twoDigits tm.tm_min ++ "-" ++ twoDigits tm.tm_sec) ∧
    (twoDigits tm.tm_mday ++ "-" ++ twoDigits (tm.tm_mon + 1) ++ "-" ++
        fourDigits (tm.tm_year + 1900).toNat ++ "_" ++
        twoDigits tm.tm_hour ++ "-" ++ twoDigits tm.tm_min ++ "-" ++
        twoDigits tm.tm_sec).length = 19 ∧
    nowWin32 (some date) (some time) = date ++ "_" ++ time := by
  have hlen : (twoDigits tm.tm_mday ++ "-" ++ twoDigits (tm.tm_mon + 1) ++ "-" ++
        fourDigits (tm.tm_year + 1900).toNat ++ "_" ++
        twoDigits tm.tm_hour ++ "-" ++ twoDigits tm.tm_min ++ "-" ++
        twoDigits tm.tm_sec).length = 19 := by
    simp only [String.length_append]
    rfl
  have htext : strftimeText tm =
      twoDigits tm.tm_mday ++ "-" ++ twoDigits (tm.tm_mon + 1) ++ "-" ++
        fourDigits (tm.tm_year + 1900).toNat ++ "_" ++
        twoDigits tm.tm_hour ++ "-" ++ twoDigits tm.tm_min ++ "-" ++ twoDigits tm.tm_sec := by
    obtain ⟨y, hy⟩ : ∃ y : Nat, tm.tm_year + 1900 = Int.ofNat y :=
      ⟨(tm.tm_year + 1900).toNat, by simp; omega⟩
    have hy1 : 1000 ≤ y := by
      have := hyear.1
      rw [hy] at this
      exact Int.ofNat_le.mp this
    have hy2 : y ≤ 9999 := by
      have := hyear.2
      rw [hy] at this
      exact Int.ofNat_le.mp this
    have hnat : (Int.ofNat y).toNat = y := rfl
    simp only [strftimeText, fmtYear, hy, decimal, hnat,
      pad2_eq_twoDigits _ hday, pad2_eq_twoDigits _ hmon, pad2_eq_twoDigits _ hhour,
      pad2_eq_twoDigits _ hmin, pad2_eq_twoDigits _ hsec, repr_eq_fourDigits y hy1 hy2]
  refine ⟨?_, hlen, rfl⟩
  rw [now, strftime, htext, if_pos (by rw [hlen]; decide)]

/-- Witness of `now_format`: 2 January 2020, 00:00:00. -/
theorem now_format_witness :
    now jan2 =
      some (twoDigits jan2.tm_mday ++ "-" ++ twoDigits (jan2.tm_mon + 1) ++ "-" ++
        fourDigits (jan2.tm_year + 1900).toNat ++ "_" ++
        twoDigits jan2.tm_hour ++ "-" ++ twoDigits jan2.tm_min ++ "-" ++
        twoDigits jan2.tm_sec) ∧
    (twoDigits jan2.tm_mday ++ "-" ++ twoDigits (jan2.tm_mon + 1) ++ "-" ++
        fourDigits (jan2.tm_year + 1900).toNat ++ "_" ++
        twoDigits jan2.tm_hour ++ "-" ++ twoDigits jan2.tm_min ++ "-" ++
        twoDigits jan2.tm_sec).length = 19 ∧
    nowWin32 (some "02-01-2020") (some "00-00-00") = "02-01-2020" ++ "_" ++ "00-00-00" :=
  now_format jan2 "02-01-2020" "00-00-00" (by decide) (by decide) (by decide) (by decide)
    (by decide) (by decide)

theorem lastIndexOf_none (c : Char) : ∀ s : List Char, lastIndexOf c s = none ↔ c ∉ s := by
  intro s
  induction s with
  | nil => simp [lastIndexOf]
  | cons x xs ih =>
    cases h : lastIndexOf c xs with
    | some i =>
      have hmem : c ∈ xs := by
        by_contra hc
        rw [ih.mpr hc] at h
        exact Option.noConfusion h
      simp [lastIndexOf, h, hmem]
    | none =>
      have hnot := ih.mp h
      by_cases hx : x = c
      · simp [lastIndexOf, h, hx]
      · have hx' : ¬ c = x := fun e => hx e.symm
        simp [lastIndexOf, h, hx, hx', hnot]

theorem lastIndexOf_some (c : Char) : ∀ (s : List Char) (i : Nat), lastIndexOf c s = some i →
    i < s.length ∧ s.drop i = c :: s.drop (i + 1) ∧ c ∉ s.drop (i + 1) := by
  intro s
  induction s with
  | nil => intro i h; simp [lastIndexOf] at h
  | cons x xs ih =>
    intro i h
    cases hxs : lastIndexOf c xs with
    | some j =>
      simp only [lastIndexOf, hxs] at h
      obtain ⟨h1, h2, h3⟩ := ih j hxs
      have hi : i = j + 1 := (Option.some.inj h).symm
      subst hi
      exact ⟨by simp; omega, by simpa using h2, by simpa using h3⟩
    | none =>
      simp only [lastIndexOf, hxs] at h
      by_cases hx : x = c
      · rw [if_pos hx] at h
        have hi : i = 0 := (Option.some.inj h).symm
        subst hi
        exact ⟨by simp, by simp [hx], by simpa using (lastIndexOf_none c xs).mp hxs⟩
      · rw [if_neg hx] at h
        exact Option.noConfusion h

theorem take_npos (l : List Char) (h : l.length ≤ npos) : l.take npos = l :=
  List.take_of_length_le h

/-- A `log` call in buffering mode keeps the buffer within
`LOG_BUFFER_LIMIT + 1` records. -/
theorem log_buffering_length (L : Logger) (env : CallEnv) (level : Int) (baremsg : String)
    (s : LogState) (h : s.logFileName = "" ∨ env.reportingLevel = L.LOG_UNCENSORED)
    (hlen : s.logBuffer.length ≤ LOG_BUFFER_LIMIT + 1) :
    (log L env level baremsg s).logBuffer.length ≤ LOG_BUFFER_LIMIT + 1 := by
  rw [log_buffering L env level baremsg s h]
  simp only [List.length_append, List.length_singleton, length_dropEarliest]
  split <;> omega

theorem run_buffering_length (L : Logger) :
    ∀ (cs : List (CallEnv × Int × String)) (s : LogState),
      s.logBuffer.length ≤ LOG_BUFFER_LIMIT + 1 →
      (∀ c ∈ cs, s.logFileName = "" ∨ c.1.reportingLevel = L.LOG_UNCENSORED) →
      (run L s (logCalls cs)).logBuffer.length ≤ LOG_BUFFER_LIMIT + 1 := by
  intro cs
  induction cs with
  | nil => intro s h _; exact h
  | cons c rest ih =>
    intro s hlen hmode
    have hc := hmode c (List.mem_cons_self _ _)
    have hstep : run L s (logCalls (c :: rest)) =
        run L (log L c.1 c.2.1 c.2.2 s) (logCalls rest) := rfl
    rw [hstep]
    apply ih
    · exact log_buffering_length L c.1 c.2.1 c.2.2 s hc hlen
    · intro c' hc'
      rw [log_logFileName]
      exact hmode c' (List.mem_cons_of_mem _ hc')

/-- With more fuel than the path has characters `baseFilenameFuel` returns, and
what it returns is the last non-empty component of the path. -/
theorem baseFilenameFuel_spec :
    ∀ (fuel : Nat) (path : String), path.length < fuel → path.length ≤ npos →
      ∃ r pre k, baseFilenameFuel fuel path = some r ∧
        path.data = pre ++ r.data ++ List.replicate k '/' ∧
        '/' ∉ r.data ∧ (pre = [] ∨ pre.getLast? = some '/') ∧ (r.data = [] → pre = []) := by
  intro fuel
  induction fuel with
  | zero => intro path h; omega
  | succ fuel ih =>
    intro path hfuel hsize
    cases h : lastIndexOf '/' path.data with
    | none =>
      have hnot := (lastIndexOf_none '/' path.data).mp h
      refine ⟨path, [], 0, ?_, by simp, hnot, Or.inl rfl, fun _ => rfl⟩
      simp [baseFilenameFuel, find_last_of, h]
    | some sep =>
      obtain ⟨h1, h2, h3⟩ := lastIndexOf_some '/' path.data sep h
      have hlen : path.length = path.data.length := rfl
      by_cases hlast : sep = path.length - 1
      · have hrest : path.data.drop (sep + 1) = [] := by
          apply List.drop_eq_nil_of_le
          omega
        have hpath : path.data = path.data.take sep ++ ['/'] := by
          conv_lhs => rw [← List.take_append_drop sep path.data, h2, hrest]
        have hshort : (String.mk (path.data.take sep)).length < fuel := by
          show (path.data.take sep).length < fuel
          rw [List.length_take]
          omega
        have hshort' : (String.mk (path.data.take sep)).length ≤ npos := by
          show (path.data.take sep).length ≤ npos
          rw [List.length_take]
          omega
        obtain ⟨r, pre, k, e1, e2, e3, e4, e5⟩ :=
          ih (String.mk (path.data.take sep)) hshort hshort'
        refine ⟨r, pre, k + 1, ?_, ?_, e3, e4, e5⟩
        · simp only [baseFilenameFuel, find_last_of, h, if_pos hlast, substr]
          rw [if_neg (by omega)]
          simp only [List.drop_zero, Option.bind_some]
          rw [← hlast]
          exact e1
        · have e2' : path.data.take sep = pre ++ r.data ++ List.replicate k '/' := e2
          rw [hpath, e2', List.replicate_succ', ← List.append_assoc]
      · have hnonempty : path.data.drop (sep + 1) ≠ [] := by
          intro hnil
          have := congrArg List.length hnil
          rw [List.length_drop, List.length_nil] at this
          omega
        have htake : (path.data.drop (sep + 1)).take npos = path.data.drop (sep + 1) := by
          apply take_npos
          rw [List.length_drop]
          omega
        refine ⟨String.mk (path.data.drop (sep + 1)), path.data.take (sep + 1), 0, ?_, ?_, h3,
          ?_, ?_⟩
        · simp only [baseFilenameFuel, find_last_of, h, if_neg hlast, substr]
          rw [if_neg (by omega), htake]
        · simp
        · right
          rw [List.take_succ, List.getLast?_append]
          have hget : path.data[sep]? = some '/' := by
            have := congrArg List.head? h2
            rw [List.head?_drop] at this
            simpa using this
          simp [hget]
        · intro hnil
          exact absurd hnil hnonempty

theorem strstr_found_in_hay (hay needle : List Char) (n : Nat) (h : strstr (hay.drop n) needle = true) :
    List.IsInfix needle hay := by
  have h1 : List.IsInfix needle ((hay.drop n).takeWhile (fun c => c != Char.ofNat 0)) := by
    simpa [strstr] using h
  exact h1.trans ((List.takeWhile_prefix _).isInfix.trans (List.drop_suffix n hay).isInfix)

/-- The loop of `getYamlSaveHeader` on a readable file: it ends by returning
a prefix of the file that is the whole file or holds the sequence. -/
theorem readLoop_spec (E : ReadEnv) (halloc : ∀ k, E.allocOk k = true)
    (hcap : ∀ k, 1 ≤ E.cap k) :
    ∀ (fuel k : Nat) (data : List Char) (offs : Nat),
      data = E.file.take data.length → E.file.length - data.length < fuel →
      ∃ r, readLoop E fuel k data offs = ReadOutcome.bytes r ∧ List.IsPrefix r E.file ∧
        (r = E.file ∨ List.IsInfix headerEnd r) := by
  intro fuel
  induction fuel with
  | zero => intro k data offs _ h; omega
  | succ fuel ih =>
    intro k data offs hdata hfuel
    have hk := hcap k
    have hle : data.length ≤ E.file.length := by
      have := congrArg List.length hdata
      rw [List.length_take] at this
      omega
    by_cases hn : min (min (E.cap k) chunksize) (E.file.length - data.length) = 0
    · refine ⟨data, ?_, ?_, Or.inl ?_⟩
      · simp [readLoop, hn]
      · rw [hdata]
        exact List.take_prefix _ _
      · have hrem : E.file.length - data.length = 0 := by
          have hc : chunksize = 4096 := rfl
          omega
        rw [hdata]
        exact List.take_of_length_le (by omega)
    · have hdata1 : data ++ (E.file.drop data.length).take
            (min (min (E.cap k) chunksize) (E.file.length - data.length)) =
          E.file.take (data.length +
            min (min (E.cap k) chunksize) (E.file.length - data.length)) := by
        rw [List.take_add]
        rw [← hdata]
      have hlen1 : (data ++ (E.file.drop data.length).take
            (min (min (E.cap k) chunksize) (E.file.length - data.length))).length =
          data.length + min (min (E.cap k) chunksize) (E.file.length - data.length) := by
        rw [List.length_append, List.length_take, List.length_drop]
        omega
      by_cases hfound : strstr ((data ++ (E.file.drop data.length).take
            (min (min (E.cap k) chunksize) (E.file.length - data.length))).drop
            (if offs > 4 then offs - 4 else 0)) headerEnd = true
      · refine ⟨_, ?_, ?_, Or.inr (strstr_found_in_hay _ _ _ hfound)⟩
        · simp only [readLoop, hn, if_false, hfound, if_true]
        · rw [hdata1]
          exact List.take_prefix _ _
      · obtain ⟨r, h1, h2, h3⟩ := ih (k + 1)
          (data ++ (E.file.drop data.length).take
            (min (min (E.cap k) chunksize) (E.file.length - data.length)))
          (data ++ (E.file.drop data.length).take
            (min (min (E.cap k) chunksize) (E.file.length - data.length))).length
          (by rw [hlen1]; exact hdata1) (by rw [hlen1]; omega)
        refine ⟨r, ?_, h2, h3⟩
        simp only [readLoop, hn, if_false, hfound, halloc (k + 1), if_true]
        exact h1

/-! ## The claims about the locale, file names, the save header and the buffer bound -/

/-- Claim C21, the code at the failing input: for the locale name
`en_US.UTF-8` `getLocale` returns `e-n_U`, and for `en_US` it returns
`e-n_US`, not `en-US`: each `substr` call is made with `dot - 1` or
`dash - 1` where the position itself (or the one after it) is needed. A name
that starts with the underscore makes `dash - 1` wrap around and the last
`substr` call throw. -/
theorem getLocale_en_US :
    find_first_of "en_US.UTF-8" '_' = some 2 ∧
    find_first_of "en_US.UTF-8" '.' = some 5 ∧
    substr "en_US.UTF-8" 0 (sizeSub 5 1) = some "en_U" ∧
    substr "en_U" 0 (sizeSub 2 1) = some "e" ∧
    substr "en_U" (sizeSub 2 1) npos = some "n_U" ∧
    getLocale (some "en_US.UTF-8") = some "e-n_U" ∧
    getLocale (some "en_US") = some "e-n_US" ∧
    getLocale (some "_US") = none := by
  decide

/-- Claim C22: for every path, `baseFilename` terminates and returns (the
recursion never reaches the depth of one more than the length of the path, and
no `substr` call throws); the result has no `'/'` and is the last non-empty
`'/'`-separated component: the path is some prefix that is empty or ends in
`'/'`, then the result, then only slashes; and the result is empty only when
that prefix is empty too, that is when the path has no non-empty component. -/
theorem baseFilename_last_component (path : String) (hsize : path.length ≤ npos) :
    ∃ r, baseFilename path = some r ∧ '/' ∉ r.data ∧
      ∃ pre k, path.data = pre ++ r.data ++ List.replicate k '/' ∧
        (pre = [] ∨ pre.getLast? = some '/') ∧
        (r = "" → path.data = List.replicate k '/') ∧
        ((∀ c ∈ path.data, c = '/') → r = "") := by
  obtain ⟨r, pre, k, e1, e2, e3, e4, e5⟩ :=
    baseFilenameFuel_spec (path.length + 1) path (Nat.lt_succ_self _) hsize
  refine ⟨r, e1, e3, pre, k, e2, e4, ?_, ?_⟩
  · intro hr
    have hdata : r.data = [] := by rw [hr]
    rw [e2, e5 hdata, hdata]
    rfl
  · intro hall
    apply String.ext
    show r.data = []
    cases hr : r.data with
    | nil => rfl
    | cons c rest =>
      have hc : c ∈ r.data := by rw [hr]; exact List.mem_cons_self _ _
      have hmem : c ∈ path.data := by
        rw [e2]
        exact List.mem_append_left _ (List.mem_append_right _ hc)
      rw [hall c hmem] at hc
      exact absurd hc e3

/-- Witness of `baseFilename_last_component`: a path with two trailing
slashes. -/
theorem baseFilename_last_component_witness :
    ∃ r, baseFilename "/usr/share/openxcom//" = some r ∧ '/' ∉ r.data ∧
      ∃ pre k, ("/usr/share/openxcom//" : String).data = pre ++ r.data ++ List.replicate k '/' ∧
        (pre = [] ∨ pre.getLast? = some '/') ∧
        (r = "" → ("/usr/share/openxcom//" : String).data = List.replicate k '/') ∧
        ((∀ c ∈ ("/usr/share/openxcom//" : String).data, c = '/') → r = "") :=
  baseFilename_last_component "/usr/share/openxcom//" (by decide)

/-- Claim C23: for every file that opens, with allocations that succeed and
reads that deliver at least one byte each time and at most 4096 (any split
into chunks), `getYamlSaveHeader` returns bytes that are a prefix of the
bytes of the file; and when the file holds the sequence `"\n---"`, the
returned prefix holds it, and holds the whole first occurrence of it. -/
theorem getYamlSaveHeader_prefix_with_header (E : ReadEnv) (filename : String)
    (hopen : E.openOk = true) (halloc : ∀ k, E.allocOk k = true) (hcap : ∀ k, 1 ≤ E.cap k) :
    ∃ r, getYamlSaveHeader E filename = ReadOutcome.bytes r ∧
      List.IsPrefix r E.file ∧
      (List.IsInfix ['\n', '-', '-', '-'] E.file → List.IsInfix ['\n', '-', '-', '-'] r) ∧
      (∀ before after, E.file = before ++ ['\n', '-', '-', '-'] ++ after →
        (∀ a b, E.file = a ++ ['\n', '-', '-', '-'] ++ b → before.length ≤ a.length) →
        List.IsPrefix (before ++ ['\n', '-', '-', '-']) r) := by
  obtain ⟨r, h1, h2, h3⟩ := readLoop_spec E halloc hcap (E.file.length + 1) 0 [] 0 rfl
    (by simp)
  refine ⟨r, ?_, h2, ?_, ?_⟩
  · simp only [getYamlSaveHeader, hopen, halloc 0, if_true]
    exact h1
  · intro hin
    rcases h3 with h3 | h3
    · rw [h3]; exact hin
    · exact h3
  · intro before after hfile hfirst
    rcases h3 with h3 | h3
    · rw [h3, hfile]
      exact List.prefix_append _ _
    · obtain ⟨a, b, hab⟩ := h3
      obtain ⟨c, hc⟩ := h2
      have hocc : E.file = a ++ ['\n', '-', '-', '-'] ++ (b ++ c) := by
        rw [← hc, ← hab]
        simp [headerEnd]
      have hlen := hfirst a (b ++ c) hocc
      have hrlen : before.length + 4 ≤ r.length := by
        have := congrArg List.length hab
        simp [headerEnd] at this
        omega
      have hr : r = E.file.take r.length := by
        rw [← hc]
        simp
      have hb : before ++ ['\n', '-', '-', '-'] = E.file.take (before.length + 4) := by
        rw [hfile]
        have h4 : (before ++ ['\n', '-', '-', '-']).length = before.length + 4 := by simp
        rw [← h4, List.take_left']
        rfl
      rw [hr, hb]
      exact (List.take_prefix_take_left _ hrlen)

/-- Witness of `getYamlSaveHeader_prefix_with_header`: reads of 9 bytes over a
file in which the sequence straddles the first two reads. -/
theorem getYamlSaveHeader_prefix_with_header_witness :
    ∃ r, getYamlSaveHeader (chunkedFile "name: x\n---\nrest of the save" 9) "x.sav" =
        ReadOutcome.bytes r ∧
      List.IsPrefix r (chunkedFile "name: x\n---\nrest of the save" 9).file ∧
      (List.IsInfix ['\n', '-', '-', '-']
          (chunkedFile "name: x\n---\nrest of the save" 9).file →
        List.IsInfix ['\n', '-', '-', '-'] r) ∧
      (∀ before after,
        (chunkedFile "name: x\n---\nrest of the save" 9).file =
          before ++ ['\n', '-', '-', '-'] ++ after →
        (∀ a b, (chunkedFile "name: x\n---\nrest of the save" 9).file =
          a ++ ['\n', '-', '-', '-'] ++ b → before.length ≤ a.length) →
        List.IsPrefix (before ++ ['\n', '-', '-', '-']) r) :=
  getYamlSaveHeader_prefix_with_header (chunkedFile "name: x\n---\nrest of the save" 9)
    "x.sav" rfl (fun _ => rfl) (fun _ => Nat.le_of_ble_eq_true rfl)

/-- Claim C24: while the sink is in buffering mode (`logFileName` empty or the
reporting level `LOG_UNCENSORED` at every call), a run of `log` calls that
starts with an empty buffer never leaves more than `LOG_BUFFER_LIMIT + 1 = 1025`
records in it; a `log` call in buffering mode made when the buffer holds 1025
records drops the oldest one only and appends the new record at the tail, and
one made when it holds 1024 or fewer drops nothing. -/
theorem buffering_holds_at_most_1025 (L : Logger) (s t : LogState)
    (cs : List (CallEnv × Int × String)) (env : CallEnv) (level : Int) (baremsg : String)
    (hempty : s.logBuffer = [])
    (hmode : ∀ c ∈ cs, s.logFileName = "" ∨ c.1.reportingLevel = L.LOG_UNCENSORED)
    (ht : t.logFileName = "" ∨ env.reportingLevel = L.LOG_UNCENSORED) :
    LOG_BUFFER_LIMIT + 1 = 1025 ∧
    (run L s (logCalls cs)).logBuffer.length ≤ LOG_BUFFER_LIMIT + 1 ∧
    (t.logBuffer.length = LOG_BUFFER_LIMIT + 1 →
      (log L env level baremsg t).logBuffer =
        t.logBuffer.tail ++ [(level, formatMsg L env.now level baremsg)]) ∧
    (t.logBuffer.length ≤ LOG_BUFFER_LIMIT →
      (log L env level baremsg t).logBuffer =
        t.logBuffer ++ [(level, formatMsg L env.now level baremsg)]) := by
  refine ⟨by rw [LOG_BUFFER_LIMIT_eq], ?_, ?_, ?_⟩
  · exact run_buffering_length L cs s (by rw [hempty]; simp) hmode
  · intro h
    rw [log_buffering L env level baremsg t ht, dropEarliest_of_gt (by omega)]
    rfl
  · intro h
    rw [log_buffering L env level baremsg t ht, dropEarliest_of_le h]
    rfl

/-- Witness of `buffering_holds_at_most_1025`: two `log` calls from the initial
state. -/
theorem buffering_holds_at_most_1025_witness :
    LOG_BUFFER_LIMIT + 1 = 1025 ∧
    (run stdLogger initialState
      (logCalls [(constEnv 4 true, 1, "a"), (constEnv 4 true, 3, "b")])).logBuffer.length ≤
        LOG_BUFFER_LIMIT + 1 ∧
    (initialState.logBuffer.length = LOG_BUFFER_LIMIT + 1 →
      (log stdLogger (constEnv 4 true) 1 "c" initialState).logBuffer =
        initialState.logBuffer.tail ++
          [(1, formatMsg stdLogger (constEnv 4 true).now 1 "c")]) ∧
    (initialState.logBuffer.length ≤ LOG_BUFFER_LIMIT →
      (log stdLogger (constEnv 4 true) 1 "c" initialState).logBuffer =
        initialState.logBuffer ++ [(1, formatMsg stdLogger (constEnv 4 true).now 1 "c")]) :=
  buffering_holds_at_most_1025 stdLogger initialState initialState
    [(constEnv 4 true, 1, "a"), (constEnv 4 true, 3, "b")] (constEnv 4 true) 1 "c" rfl
    (fun _ _ => Or.inl rfl) (Or.inl rfl)

/-- Claim C25: for every filename, `noExt(filename)` and `getExt(filename)`
return (no `substr` call throws) and their concatenation is the filename;
`getExt(filename)` is empty exactly when the filename has no `'.'`, and
otherwise it starts with `'.'` and has no other `'.'`, `noExt(filename)` being
the part before that last `'.'`. -/
theorem noExt_append_getExt (filename : String) (hsize : filename.length ≤ npos) :
    ∃ base ext, noExt filename = some base ∧ getExt filename = some ext ∧
      base ++ ext = filename ∧
      (ext = "" ↔ '.' ∉ filename.data) ∧
      ('.' ∈ filename.data →
        ∃ rest, ext.data = '.' :: rest ∧ '.' ∉ rest ∧
          filename.data = base.data ++ '.' :: rest) := by
  cases h : lastIndexOf '.' filename.data with
  | none =>
    have hnot := (lastIndexOf_none '.' filename.data).mp h
    refine ⟨filename, "", ?_, ?_, ?_, ?_, ?_⟩
    · simp [noExt, find_last_of, h]
    · simp [getExt, find_last_of, h]
    · exact String.append_empty filename
    · exact ⟨fun _ => hnot, fun _ => rfl⟩
    · intro hmem
      exact absurd hmem hnot
  | some dot =>
    obtain ⟨h1, h2, h3⟩ := lastIndexOf_some '.' filename.data dot h
    have hlen : dot ≤ filename.length := Nat.le_of_lt h1
    have hdrop : (filename.data.drop dot).take npos = filename.data.drop dot := by
      apply take_npos
      rw [List.length_drop]
      exact Nat.le_trans (Nat.sub_le _ _) hsize
    have hmem : '.' ∈ filename.data := by
      by_contra hc
      rw [(lastIndexOf_none '.' filename.data).mpr hc] at h
      exact Option.noConfusion h
    refine ⟨String.mk (filename.data.take dot), String.mk (filename.data.drop dot),
      ?_, ?_, ?_, ?_, ?_⟩
    · simp [noExt, find_last_of, h, substr]
    · simp only [getExt, find_last_of, h, substr]
      rw [if_neg (by omega), hdrop]
    · apply String.ext
      simp [String.data_append]
    · constructor
      · intro he
        have hd := congrArg String.data he
        simp only [h2] at hd
        exact absurd hd (by simp)
      · intro hc
        exact absurd hmem hc
    · intro _
      refine ⟨filename.data.drop (dot + 1), h2, h3, ?_⟩
      show filename.data = filename.data.take dot ++ '.' :: filename.data.drop (dot + 1)
      rw [← h2, List.take_append_drop]

/-- Witness of `noExt_append_getExt`: the filename `save.tar.gz`. -/
theorem noExt_append_getExt_witness :
    ∃ base ext, noExt "save.tar.gz" = some base ∧ getExt "save.tar.gz" = some ext ∧
      base ++ ext = "save.tar.gz" ∧
      (ext = "" ↔ '.' ∉ ("save.tar.gz" : String).data) ∧
      ('.' ∈ ("save.tar.gz" : String).data →
        ∃ rest, ext.data = '.' :: rest ∧ '.' ∉ rest ∧
          ("save.tar.gz" : String).data = base.data ++ '.' :: rest) :=
  noExt_append_getExt "save.tar.gz" (by decide)

end CrossPlatform
end OpenXcom
